import Mathlib

/-!
Shallow embedding of the glidebuilder report-parsing and generation pipeline
(src/backend/parser.ts, src/backend/generator.ts, src/app/api/generate/route.ts).

Strings are modelled as Lean `String` (lists of characters); JavaScript string
lengths (UTF-16 units) are modelled by character counts, and the JavaScript
whitespace class is restricted to its ASCII part, which is the only part the
source's string literals and the theorems below exercise.  JavaScript regular
expressions are embedded as executable matchers that reproduce the
leftmost-match, ordered-alternation and greedy/lazy backtracking semantics of
the concrete patterns appearing in the source.  Asynchronous backend calls are
modelled as oracle functions returning `Except String String` (error message or
raw model output); `new Date()` is modelled as an explicit date parameter.
-/

/-- ASCII part of the JavaScript `\s` character class. -/
def isWsChar (c : Char) : Bool :=
  c = ' ' || c = '\t' || c = '\n' || c = '\r' || c = '\x0b' || c = '\x0c'

/-- The JavaScript `\w` character class: `[A-Za-z0-9_]`. -/
def isWordChar (c : Char) : Bool :=
  c.isAlpha || c.isDigit || c = '_'

/-- The character class `[\s-]` used by several vulnerability-type patterns. -/
def isWsDash (c : Char) : Bool :=
  isWsChar c || c = '-'

/-- Drop a literal (case-sensitive) pattern from the front of a character list,
returning the remainder on success. -/
def dropLit : List Char → List Char → Option (List Char)
  | [], l => some l
  | _ :: _, [] => none
  | p :: ps, c :: cs => if c = p then dropLit ps cs else none

/-- Drop a lower-case literal from the front of a character list, comparing
case-insensitively (the embedding of a case-insensitive literal match). -/
def stripCI : List Char → List Char → Option (List Char)
  | [], l => some l
  | _ :: _, [] => none
  | p :: ps, c :: cs => if c.toLower = p then stripCI ps cs else none

/-- Substring containment test on character lists. -/
def listContains (l pat : List Char) : Bool :=
  pat.isPrefixOf l ||
    match l with
    | [] => false
    | _ :: cs => listContains cs pat

/-- Lower-case a character list (ASCII case folding, as `Char.toLower`). -/
def lowerChars (l : List Char) : List Char :=
  l.map Char.toLower

/-- Embedding of JavaScript `String.prototype.toLowerCase` (ASCII range). -/
def jsToLower (s : String) : String :=
  String.mk (lowerChars s.data)

/-- Left half of JavaScript `trim`. -/
def trimLeftChars (l : List Char) : List Char :=
  l.dropWhile isWsChar

/-- Right half of JavaScript `trim`. -/
def trimRightChars (l : List Char) : List Char :=
  (l.reverse.dropWhile isWsChar).reverse

/-- Embedding of JavaScript `String.prototype.trim`. -/
def jsTrim (s : String) : String :=
  String.mk (trimRightChars (trimLeftChars s.data))

/-- Embedding of JavaScript `String.prototype.trimEnd`. -/
def jsTrimEnd (s : String) : String :=
  String.mk (trimRightChars s.data)

/-- Embedding of JavaScript `slice(0, n)` / `substring(0, n)`. -/
def jsTake (s : String) (n : Nat) : String :=
  String.mk (s.data.take n)

/-- Embedding of JavaScript `Array.prototype.join`. -/
def jsJoin (sep : String) : List String → String
  | [] => ""
  | p :: rest => rest.foldl (fun acc q => acc ++ sep ++ q) p

/-- Data model of `src/backend/types.ts`. -/
structure ParsedReportMetadata where
  title : String
  severity : Option String
  vulnType : String
  source : Option String
  date : Option String
deriving Repr, DecidableEq

structure ParsedArtifact where
  label : String
  content : String
deriving Repr, DecidableEq

structure ParsedReport where
  raw : String
  metadata : ParsedReportMetadata
  artifacts : List ParsedArtifact
deriving Repr, DecidableEq

structure GlideTemplate where
  id : String
  title : String
  description : Option String
  codeSnippet : String
deriving Repr, DecidableEq

structure BreakdownReference where
  id : String
  title : String
  content : String
deriving Repr, DecidableEq

structure BreakdownGenerationContext where
  report : ParsedReport
  referenceBreakdowns : List BreakdownReference
  templates : List GlideTemplate
deriving Repr, DecidableEq

/-- Constants of `src/backend/generator.ts`. -/
def DEFAULT_MODEL_ID : String := "gpt-5-mini"

def FALLBACK_MODEL_ID : String := "gpt-5-nano"

def MAX_REPORT_LENGTH : Nat := 6000

def MAX_REFERENCE_LENGTH : Nat := 2500

def MAX_TOTAL_REFERENCE_LENGTH : Nat := 9000

def MAX_TEMPLATE_SUMMARY_LENGTH : Nat := 420

def FALLBACK_SUMMARY_LENGTH : Nat := 600

/-- Embedding of `truncate` in `src/backend/generator.ts`. -/
def truncate (content : String) (maxLength : Nat) : String :=
  if content.length ≤ maxLength then content
  else jsTake content maxLength ++ "\n... (truncated)"

/-- Embedding of `normalizeWhitespace`: `text.replace(/\s+/g, ' ').trim()`. -/
def collapseWsRuns : List Char → List Char
  | [] => []
  | c :: cs =>
    if isWsChar c then ' ' :: collapseWsRuns (cs.dropWhile isWsChar)
    else c :: collapseWsRuns cs
termination_by l => l.length
decreasing_by
  · exact Nat.lt_succ_of_le ((List.dropWhile_suffix isWsChar).length_le)
  · exact Nat.lt_succ_self _

def normalizeWhitespace (text : String) : String :=
  jsTrim (String.mk (collapseWsRuns text.data))

/-- Embedding of `summarizeTemplate` (the `!text` guard treats the empty
string like `undefined`). -/
def summarizeTemplate (text : Option String) (maxLength : Nat) : Option String :=
  match text with
  | none => none
  | some t =>
    if t = "" then none
    else
      let normalized := normalizeWhitespace t
      if normalized.length ≤ maxLength then some normalized
      else some (jsTake normalized maxLength ++ "…")

/-- Embedding of `buildTemplateDigest` (the `summary ? … : undefined` filter
drops a falsy, i.e. empty, summary line). -/
def buildTemplateDigest (templates : List GlideTemplate) : String :=
  if templates.isEmpty then "No glider boilerplates were provided."
  else
    jsJoin "\n\n" (templates.map fun t =>
      match summarizeTemplate t.description MAX_TEMPLATE_SUMMARY_LENGTH with
      | some s =>
        if s = "" then "### " ++ t.title
        else "### " ++ t.title ++ "\n" ++ "- Synopsis: " ++ s
      | none => "### " ++ t.title)

/-- The loop of `buildReferenceDigest`: the list of `(reference, clipped)`
pairs produced before the cumulative budget check breaks out. -/
def referenceClips : List BreakdownReference → Nat → List (BreakdownReference × String)
  | [], _ => []
  | r :: rs, consumed =>
    if MAX_TOTAL_REFERENCE_LENGTH ≤ consumed then []
    else
      let remaining := MAX_TOTAL_REFERENCE_LENGTH - consumed
      let clipped := truncate r.content (min MAX_REFERENCE_LENGTH remaining)
      (r, clipped) :: referenceClips rs (consumed + clipped.length)

/-- Embedding of `buildReferenceDigest` in `src/backend/generator.ts`. -/
def buildReferenceDigest (references : List BreakdownReference) : String :=
  if references.isEmpty then "No additional breakdown references available."
  else
    jsJoin "\n\n---\n\n"
      ((referenceClips references 0).map fun rc =>
        "### " ++ rc.1.title ++ "\n" ++ jsTrim rc.2)

/-- Characters of the original reference texts that survive clipping (the
`slice` part of each `truncate`, excluding the appended truncation marker),
summed along the same recursion as `referenceClips`. -/
def includedOriginalChars : List BreakdownReference → Nat → Nat
  | [], _ => 0
  | r :: rs, consumed =>
    if MAX_TOTAL_REFERENCE_LENGTH ≤ consumed then 0
    else
      let remaining := MAX_TOTAL_REFERENCE_LENGTH - consumed
      let cap := min MAX_REFERENCE_LENGTH remaining
      let clipped := truncate r.content cap
      min r.content.length cap + includedOriginalChars rs (consumed + clipped.length)

/-- Attempt of the title regex `/^#\s+(.+)$/m` at a line start whose remaining
input is `l`: a `#`, then at least one whitespace character (greedy, with
backtracking — `\s` also matches newlines), then a nonempty run of
non-newline characters, captured up to the end of the line. -/
def titleBacktrackAux (wsRun : List Char) : Nat → Option (List Char)
  | 0 => none
  | m + 1 =>
    match wsRun.get? (m + 1) with
    | some c =>
      if c ≠ '\n' then some ((wsRun.drop (m + 1)).takeWhile (· ≠ '\n'))
      else titleBacktrackAux wsRun m
    | none => titleBacktrackAux wsRun m

def attemptTitleAt : List Char → Option (List Char)
  | '#' :: rest =>
    let wsRun := rest.takeWhile isWsChar
    let after := rest.drop wsRun.length
    if wsRun.isEmpty then none
    else if !after.isEmpty then some (after.takeWhile (· ≠ '\n'))
    else titleBacktrackAux wsRun wsRun.length
  | _ => none

/-- Leftmost match of the multi-line-anchored title regex: attempts are made
only at line starts, scanning left to right. -/
def findTitleMatch : List Char → Bool → Option (List Char)
  | [], _ => none
  | c :: cs, atStart =>
    if atStart then
      match attemptTitleAt (c :: cs) with
      | some cap => some cap
      | none => findTitleMatch cs (c = '\n')
    else findTitleMatch cs (c = '\n')

/-- Backtracking for `\s*\n+(.+)` after the `Summary` keyword: `wsRun` is the
maximal whitespace run following the keyword and `tail` the input after it.
The engine looks for the longest `\s*` part such that at least one newline
follows and a nonempty non-newline capture can start. -/
def wsNlTry (wsRun tail : List Char) (n : Nat) : Option (List Char) :=
  let nlPart := (wsRun.drop n).takeWhile (· = '\n')
  let afterNl := wsRun.drop (n + nlPart.length) ++ tail
  if !nlPart.isEmpty && !afterNl.isEmpty then
    some (afterNl.takeWhile (· ≠ '\n'))
  else none

def wsNlBacktrack (wsRun tail : List Char) : Nat → Option (List Char)
  | 0 => wsNlTry wsRun tail 0
  | m + 1 =>
    match wsNlTry wsRun tail (m + 1) with
    | some cap => some cap
    | none => wsNlBacktrack wsRun tail m

/-- Attempt of `/##\s*Summary\s*\n+(.+)/i` at one position. -/
def attemptSummaryAt : List Char → Option (List Char)
  | '#' :: '#' :: rest =>
    let afterWs := rest.dropWhile isWsChar
    match stripCI "summary".data afterWs with
    | none => none
    | some r =>
      let wsRun := r.takeWhile isWsChar
      let tail := r.drop wsRun.length
      wsNlBacktrack wsRun tail wsRun.length
  | _ => none

/-- Leftmost (unanchored) match of the `Summary` fallback title regex. -/
def findSummaryMatch : List Char → Option (List Char)
  | [] => none
  | c :: cs =>
    match attemptSummaryAt (c :: cs) with
    | some cap => some cap
    | none => findSummaryMatch cs

/-- Title extraction of `parseVulnerabilityReport`: first heading line, else
`## Summary` section content, else the sentinel. -/
def extractTitle (markdown : String) : String :=
  match findTitleMatch markdown.data true with
  | some cap => jsTrim (String.mk cap)
  | none =>
    match findSummaryMatch markdown.data with
    | some cap => jsTrim (String.mk cap)
    | none => "Unknown Vulnerability"

/-- Attempt of `/##\s*(?:Severity|Impact)\s*\n+(\w+)/i` at one position: after
the keyword, the whitespace run must end with at least one newline directly
followed by the captured word (`\w+` cannot consume whitespace, so no
backtracking into the run is possible). -/
def attemptExplicitSeverityAt : List Char → Option (List Char)
  | '#' :: '#' :: rest =>
    let afterWs := rest.dropWhile isWsChar
    let afterKw :=
      match stripCI "severity".data afterWs with
      | some r => some r
      | none => stripCI "impact".data afterWs
    match afterKw with
    | none => none
    | some r =>
      let wsRun := r.takeWhile isWsChar
      let after := r.drop wsRun.length
      if !wsRun.isEmpty && wsRun.getLast? = some '\n' then
        let word := after.takeWhile isWordChar
        if word.isEmpty then none else some word
      else none
  | _ => none

def findExplicitSeverity : List Char → Option (List Char)
  | [] => none
  | c :: cs =>
    match attemptExplicitSeverityAt (c :: cs) with
    | some cap => some cap
    | none => findExplicitSeverity cs

/-- Case-insensitive match of one of the four severity levels, returning the
original-case captured slice and the remainder. -/
def matchLevel (l : List Char) : Option (List Char × List Char) :=
  match stripCI "critical".data l with
  | some rest => some (l.take 8, rest)
  | none =>
    match stripCI "high".data l with
    | some rest => some (l.take 4, rest)
    | none =>
      match stripCI "medium".data l with
      | some rest => some (l.take 6, rest)
      | none =>
        match stripCI "low".data l with
        | some rest => some (l.take 3, rest)
        | none => none

/-- Word-boundary test for the position after a match: at end of input or
before a non-word character. -/
def boundaryAfter : List Char → Bool
  | [] => true
  | c :: _ => !isWordChar c

/-- Attempt of `/\b(critical|high|medium|low)\s+(?:severity|impact|risk)\b/i`
at one position; `prev` is the character preceding the position. -/
def attemptInlineLevelFirstAt (prev : Option Char) (l : List Char) : Option (List Char) :=
  let boundaryBefore := match prev with | none => true | some p => !isWordChar p
  if boundaryBefore then
    match matchLevel l with
    | none => none
    | some (cap, rest) =>
      let ws := rest.takeWhile isWsChar
      let rest2 := rest.drop ws.length
      if ws.isEmpty then none
      else
        let afterKw :=
          match stripCI "severity".data rest2 with
          | some r => some r
          | none =>
            match stripCI "impact".data rest2 with
            | some r => some r
            | none => stripCI "risk".data rest2
        match afterKw with
        | none => none
        | some r => if boundaryAfter r then some cap else none
  else none

def findInlineLevelFirst : Option Char → List Char → Option (List Char)
  | prev, [] => attemptInlineLevelFirstAt prev []
  | prev, c :: cs =>
    match attemptInlineLevelFirstAt prev (c :: cs) with
    | some cap => some cap
    | none => findInlineLevelFirst (some c) cs

/-- Attempt of `/(?:severity|impact|risk)[:\s]+\b(critical|high|medium|low)\b/i`
at one position (the `\b` before the level always holds because the preceding
character comes from the nonempty `[:\s]+` run). -/
def attemptKeywordFirstAt (l : List Char) : Option (List Char) :=
  let afterKw :=
    match stripCI "severity".data l with
    | some r => some r
    | none =>
      match stripCI "impact".data l with
      | some r => some r
      | none => stripCI "risk".data l
  match afterKw with
  | none => none
  | some r =>
    let run := r.takeWhile (fun c => c = ':' || isWsChar c)
    let rest := r.drop run.length
    if run.isEmpty then none
    else
      match matchLevel rest with
      | none => none
      | some (cap, rest2) => if boundaryAfter rest2 then some cap else none

def findKeywordFirst : List Char → Option (List Char)
  | [] => none
  | c :: cs =>
    match attemptKeywordFirstAt (c :: cs) with
    | some cap => some cap
    | none => findKeywordFirst cs

/-- Severity extraction of `parseVulnerabilityReport`: explicit
`## Severity` / `## Impact` section first, else the two inline keyword
patterns, the capture lower-cased; absent when nothing matches. -/
def extractSeverity (markdown : String) : Option String :=
  match findExplicitSeverity markdown.data with
  | some w => some (String.mk (lowerChars w))
  | none =>
    match findInlineLevelFirst none markdown.data with
    | some w => some (String.mk (lowerChars w))
    | none =>
      match findKeywordFirst markdown.data with
      | some w => some (String.mk (lowerChars w))
      | none => none

/-- Scan helper: does a literal `a`, an optional single `[\s-]` character, and
a literal `b` match at the head of `l`?  (Embedding of `a[\s-]?b`; the
alternatives are mutually exclusive because `b` starts with a letter.) -/
def seqOptAt (a b : List Char) (l : List Char) : Bool :=
  match dropLit a l with
  | none => false
  | some r =>
    (dropLit b r).isSome ||
      (match r with
       | c :: r2 => isWsDash c && (dropLit b r2).isSome
       | [] => false)

def containsSeqOpt (a b : List Char) : List Char → Bool
  | [] => seqOptAt a b []
  | c :: cs => seqOptAt a b (c :: cs) || containsSeqOpt a b cs

/-- Embedding of `a[\s-]?b[\s-]?c` (used by `denial[\s-]?of[\s-]?service`). -/
def seqOpt3At (a b c : List Char) (l : List Char) : Bool :=
  match dropLit a l with
  | none => false
  | some r =>
    let step (x : List Char) (lit : List Char) : Option (List Char) :=
      match dropLit lit x with
      | some y => some y
      | none =>
        match x with
        | d :: x2 => if isWsDash d then dropLit lit x2 else none
        | [] => none
    match step r b with
    | none => false
    | some r2 => (step r2 c).isSome

def containsSeqOpt3 (a b c : List Char) : List Char → Bool
  | [] => seqOpt3At a b c []
  | d :: cs => seqOpt3At a b c (d :: cs) || containsSeqOpt3 a b c cs

/-- Embedding of `a.*b`: `a` somewhere, then `b` later on the same line
(`.` does not match newlines; all literals used are newline-free). -/
def dotStarAt (a b : List Char) (l : List Char) : Bool :=
  match dropLit a l with
  | none => false
  | some r => listContains (r.takeWhile (· ≠ '\n')) b

def containsDotStar (a b : List Char) : List Char → Bool
  | [] => dotStarAt a b []
  | c :: cs => dotStarAt a b (c :: cs) || containsDotStar a b cs

/-- Embedding of `a[\s-]?b.*c` (used by `return[\s-]?value.*unchecked`). -/
def seqOptDotStarAt (a b c : List Char) (l : List Char) : Bool :=
  match dropLit a l with
  | none => false
  | some r =>
    let afterB : Option (List Char) :=
      match dropLit b r with
      | some y => some y
      | none =>
        match r with
        | d :: r2 => if isWsDash d then dropLit b r2 else none
        | [] => none
    match afterB with
    | none => false
    | some r2 => listContains (r2.takeWhile (· ≠ '\n')) c

def containsSeqOptDotStar (a b c : List Char) : List Char → Bool
  | [] => seqOptDotStarAt a b c []
  | d :: cs => seqOptDotStarAt a b c (d :: cs) || containsSeqOptDotStar a b c cs

/-- Embedding of `mev(?!.*attack)`: an occurrence of `mev` not followed,
on the same line, by `attack`. -/
def mevNoAttackAt (l : List Char) : Bool :=
  match dropLit "mev".data l with
  | none => false
  | some r => !(listContains (r.takeWhile (· ≠ '\n')) "attack".data)

def containsMevNoAttack : List Char → Bool
  | [] => mevNoAttackAt []
  | c :: cs => mevNoAttackAt (c :: cs) || containsMevNoAttack cs

/-- The thirteen case-insensitive vulnerability-type patterns of
`parseVulnerabilityReport`, each embedded as a test on the lower-cased
input (the embedding of the `i` flag). -/
def reentrancyTest (s : String) : Bool :=
  let l := lowerChars s.data
  listContains l "reentrancy".data || listContains l "re-entrancy".data

def accessControlTest (s : String) : Bool :=
  let l := lowerChars s.data
  containsSeqOpt "access".data "control".data l ||
    listContains l "unauthorized".data ||
    listContains l "permission".data ||
    listContains l "admin".data ||
    containsSeqOpt "upper".data "bound".data l ||
    containsSeqOpt "lower".data "bound".data l ||
    containsDotStar "bound".data "lack".data l ||
    containsDotStar "lack".data "bound".data l

def slippageTest (s : String) : Bool :=
  let l := lowerChars s.data
  listContains l "slippage".data ||
    containsDotStar "sandwich".data "attack".data l ||
    containsDotStar "mev".data "attack".data l

def oracleTest (s : String) : Bool :=
  let l := lowerChars s.data
  listContains l "oracle".data ||
    containsSeqOpt "price".data "feed".data l ||
    listContains l "chainlink".data ||
    containsDotStar "stale".data "price".data l ||
    containsDotStar "price".data "stale".data l

def uncheckedReturnTest (s : String) : Bool :=
  let l := lowerChars s.data
  containsSeqOpt "unchecked".data "return".data l ||
    containsSeqOptDotStar "return".data "value".data "unchecked".data l

def validationTest (s : String) : Bool :=
  let l := lowerChars s.data
  listContains l "validation".data ||
    containsDotStar "input".data "check".data l ||
    containsDotStar "parameter".data "check".data l ||
    containsDotStar "bound".data "check".data l ||
    containsDotStar "lacks".data "validation".data l ||
    containsDotStar "missing".data "validation".data l ||
    containsDotStar "lacks".data "check".data l ||
    containsDotStar "missing".data "check".data l

def calculationTest (s : String) : Bool :=
  let l := lowerChars s.data
  listContains l "calculation".data || listContains l "math".data ||
    listContains l "arithmetic".data || listContains l "overflow".data ||
    listContains l "underflow".data

def dosTest (s : String) : Bool :=
  let l := lowerChars s.data
  containsSeqOpt3 "denial".data "of".data "service".data l ||
    listContains l "dos".data ||
    listContains l "grief".data ||
    containsDotStar "brick".data "flow".data l ||
    containsDotStar "brick".data "user".data l

def deadlineTest (s : String) : Bool :=
  let l := lowerChars s.data
  containsDotStar "deadline".data "missing".data l ||
    containsDotStar "missing".data "deadline".data l ||
    containsDotStar "timestamp".data "check".data l

def frontRunningTest (s : String) : Bool :=
  let l := lowerChars s.data
  containsSeqOpt "front".data "run".data l || containsMevNoAttack l

def tokenTransferTest (s : String) : Bool :=
  let l := lowerChars s.data
  containsSeqOpt "token".data "transfer".data l ||
    listContains l "erc20".data || listContains l "erc721".data

def liquidityTest (s : String) : Bool :=
  let l := lowerChars s.data
  listContains l "liquidity".data || listContains l "pool".data ||
    listContains l "amm".data

def bridgeTest (s : String) : Bool :=
  let l := lowerChars s.data
  listContains l "bridge".data ||
    containsSeqOpt "cross".data "chain".data l ||
    listContains l "layerzero".data

/-- The ordered `vulnTypePatterns` table of `parseVulnerabilityReport`
(insertion order of the object literal, which `Object.entries` preserves). -/
def vulnTypePatterns : List (String × (String → Bool)) :=
  [("reentrancy", reentrancyTest),
   ("access-control", accessControlTest),
   ("slippage", slippageTest),
   ("oracle", oracleTest),
   ("unchecked-return", uncheckedReturnTest),
   ("validation", validationTest),
   ("calculation", calculationTest),
   ("dos", dosTest),
   ("deadline", deadlineTest),
   ("front-running", frontRunningTest),
   ("token-transfer", tokenTransferTest),
   ("liquidity", liquidityTest),
   ("bridge", bridgeTest)]

/-- Vulnerability-type extraction: first matching pattern against the
lower-cased title wins; only if none matches is the scan repeated against the
first 500 characters of the document; `"unknown"` otherwise. -/
def extractVulnType (title markdown : String) : String :=
  let titleLower := jsToLower title
  match vulnTypePatterns.find? (fun p => p.2 titleLower) with
  | some p => p.1
  | none =>
    match vulnTypePatterns.find? (fun p => p.2 (jsTake markdown 500)) with
    | some p => p.1
    | none => "unknown"

theorem dropLit_length {pat l rest : List Char} (h : dropLit pat l = some rest) :
    rest.length + pat.length = l.length := by
  induction pat generalizing l with
  | nil => simp [dropLit] at h; subst h; simp
  | cons p ps ih =>
    match l with
    | [] => simp [dropLit] at h
    | c :: cs =>
      rw [dropLit] at h
      split at h
      · have := ih h
        simp
        omega
      · simp at h

theorem stripCI_length {pat l rest : List Char} (h : stripCI pat l = some rest) :
    rest.length + pat.length = l.length := by
  induction pat generalizing l with
  | nil => simp [stripCI] at h; subst h; simp
  | cons p ps ih =>
    match l with
    | [] => simp [stripCI] at h
    | c :: cs =>
      rw [stripCI] at h
      split at h
      · have := ih h
        simp
        omega
      · simp at h

/-- Lazy search of `([\s\S]*?)` followed by three backticks: split at the
first occurrence of a triple backtick, returning the content before it and
the remainder after it. -/
def splitAtTriple : List Char → Option (List Char × List Char)
  | [] => none
  | c :: cs =>
    match dropLit "```".data (c :: cs) with
    | some rest => some ([], rest)
    | none => (splitAtTriple cs).map (fun p => (c :: p.1, p.2))

/-- Attempt of the code-block regex `/```(\w+)?\n([\s\S]*?)```/` at one
position: three backticks, an optional greedy word run (the language tag), a
mandatory newline, then the lazily matched content up to the next triple
backtick. -/
def blockAttempt (l : List Char) : Option (Option (List Char) × List Char × List Char) :=
  match dropLit "```".data l with
  | none => none
  | some rest =>
    let run := rest.takeWhile isWordChar
    match dropLit ['\n'] (rest.drop run.length) with
    | none => none
    | some body =>
      match splitAtTriple body with
      | some p => some (if run.isEmpty then none else some run, p.1, p.2)
      | none => none

/-- Leftmost full match of the code-block regex. -/
def findBlockFrom : List Char → Option (Option (List Char) × List Char × List Char)
  | [] => none
  | c :: cs =>
    match blockAttempt (c :: cs) with
    | some r => some r
    | none => findBlockFrom cs

theorem splitAtTriple_length {l content rest : List Char}
    (h : splitAtTriple l = some (content, rest)) :
    content.length + 3 + rest.length = l.length := by
  induction l generalizing content rest with
  | nil => simp [splitAtTriple] at h
  | cons c cs ih =>
    rw [splitAtTriple] at h
    cases hd : dropLit "```".data (c :: cs) with
    | some r =>
      rw [hd] at h
      simp at h
      obtain ⟨hc, hr⟩ := h
      have := dropLit_length hd
      subst hc; subst hr
      simp at this ⊢
      omega
    | none =>
      rw [hd] at h
      cases hs : splitAtTriple cs with
      | none => rw [hs] at h; simp at h
      | some p =>
        rw [hs] at h
        simp at h
        obtain ⟨hc, hr⟩ := h
        have := @ih p.1 p.2 (by rw [hs])
        subst hr
        rw [← hc]
        simp
        omega

theorem blockAttempt_length {l : List Char} {lang : Option (List Char)}
    {content rest : List Char}
    (h : blockAttempt l = some (lang, content, rest)) :
    rest.length < l.length := by
  unfold blockAttempt at h
  cases hd : dropLit "```".data l with
  | none => rw [hd] at h; simp at h
  | some r =>
    rw [hd] at h
    simp only at h
    cases h2 : dropLit ['\n'] (r.drop (r.takeWhile isWordChar).length) with
    | none => rw [h2] at h; simp at h
    | some body =>
      rw [h2] at h
      simp only at h
      cases h3 : splitAtTriple body with
      | none => rw [h3] at h; simp at h
      | some p =>
        rw [h3] at h
        simp only at h
        injection h with h4
        have hr : p.2 = rest := congrArg (fun t => t.2.2) h4
        have hlen3 := @splitAtTriple_length body p.1 p.2 (by rw [h3])
        have hlen2 := dropLit_length h2
        have hlen1 := dropLit_length hd
        have hdrop : (r.drop (r.takeWhile isWordChar).length).length ≤ r.length := by
          simp
        simp at hlen1 hlen2
        rw [← hr]
        omega

theorem findBlockFrom_length {l : List Char} {lang : Option (List Char)}
    {content rest : List Char}
    (h : findBlockFrom l = some (lang, content, rest)) :
    rest.length < l.length := by
  induction l with
  | nil => simp [findBlockFrom] at h
  | cons c cs ih =>
    rw [findBlockFrom] at h
    cases ha : blockAttempt (c :: cs) with
    | some r =>
      rw [ha] at h
      simp at h
      subst h
      exact blockAttempt_length ha
    | none =>
      rw [ha] at h
      have := ih h
      simp
      omega

/-- The `exec` loop of the artifact scan: every non-overlapping match of the
code-block regex, in document order, as `(language tag, raw content)`. -/
def extractBlocks (l : List Char) : List (Option (List Char) × List Char) :=
  match hb : findBlockFrom l with
  | none => []
  | some (lang, content, rest) => (lang, content) :: extractBlocks rest
termination_by l.length
decreasing_by exact findBlockFrom_length hb

/-- Artifact extraction of `parseVulnerabilityReport`: blocks become
1-indexed labelled snippets, the language tag appended in parentheses when
present, content trimmed. -/
def extractArtifacts (markdown : String) : List ParsedArtifact :=
  (extractBlocks markdown.data).enum.map fun ic =>
    { label :=
        "Code Snippet " ++ toString (ic.1 + 1) ++
          (match ic.2.1 with
           | some w => " (" ++ String.mk w ++ ")"
           | none => ""),
      content := jsTrim (String.mk ic.2.2) }

/-- Embedding of `parseVulnerabilityReport` in `src/backend/parser.ts`;
`date` stands for the `new Date()` stamp taken at parse time. -/
def parseVulnerabilityReport (markdown : String) (source : Option String)
    (date : String) : ParsedReport :=
  let title := extractTitle markdown
  { raw := markdown,
    metadata :=
      { title := title,
        severity := extractSeverity markdown,
        vulnType := extractVulnType title markdown,
        source := source,
        date := some date },
    artifacts := extractArtifacts markdown }

/-- Embedding of `buildGliderSkeleton`: the fixed line list joined by
newlines, with trailing whitespace trimmed. -/
def buildGliderSkeleton : String :=
  jsTrimEnd (jsJoin "\n"
    ["from glider import *",
     "",
     "def query():",
     "    \"\"\"",
     "    @title: <replace with concise detection title>",
     "    @description:",
     "      Detects <summarize the confirmed behaviour> by analysing:",
     "        - <bullet describing exploit path>",
     "        - <bullet describing impact or prerequisite>",
     "",
     "      This enables <note on business/technical impact>.",
     "",
     "      A hit requires:",
     "        - <criterion #1>",
     "        - <criterion #2>",
     "        - <add more criteria as needed>",
     "",
     "    @tags: tag-one, tag-two, tag-three",
     "    \"\"\"",
     "",
     "    LIMIT_FUNCS = 1_000",
     "",
     "    def matches_primary_signal(fn):",
     "        \"\"\"Outline the principal signal expected for a true positive.\"\"\"",
     "        # TODO: Implement predicate using fn.instructions(), fn.callee_functions(), storage(), etc.",
     "        return False",
     "",
     "    def reinforces_context(fn):",
     "        \"\"\"Capture secondary heuristics surfaced in the breakdown.\"\"\"",
     "        # TODO: Implement context checks drawn from the report.",
     "        return False",
     "",
     "    def excludes_false_positives(fn):",
     "        \"\"\"List guard rails that remove benign matches or admin-only flows.\"\"\"",
     "        # TODO: Implement guard rail logic once defined.",
     "        return True",
     "",
     "    output = (",
     "        Functions()",
     "        .exec(LIMIT_FUNCS)",
     "        # .filter(<helper_name>)  # implement your filter based on breakdown criteria",
     "        # .filter(<helper_name>)  # implement your filter based on breakdown criteria",
     "        # .filter(<helper_name>)  # implement your filter based on breakdown criteria",
     "    )",
     "",
     "    return output",
     "",
     "# Add additional helper functions that cover every detection criterion identified in the breakdown."])

/-- The metadata block of `buildPrompt` (the `if (…)` pushes skip falsy,
i.e. empty, `source` and `date` values). -/
def metadataLines (report : ParsedReport) : List String :=
  let base :=
    ["Title: " ++ report.metadata.title,
     "Severity: " ++ report.metadata.severity.getD "unknown",
     "Vulnerability Type: " ++ report.metadata.vulnType]
  let withSource :=
    base ++
      (match report.metadata.source with
       | some s => if s = "" then [] else ["Source: " ++ s]
       | none => [])
  withSource ++
    (match report.metadata.date with
     | some d => if d = "" then [] else ["Date: " ++ d]
     | none => [])

/-- The fixed rule preamble of the prompt template literal. -/
def promptRules : String :=
  "You are a senior blockchain security analyst. Using the provided vulnerability report, reference breakdowns, and glider boilerplate templates, produce a concise Markdown breakdown for investigators.\n\nRespect the following rules:\n- Base your analysis on the supplied report; use reference breakdowns for style, structure, and heuristics.\n- Maintain analytical tone, clearly attributing assumptions or missing data.\n- Do not produce Glider or Python code. Detection guidance must remain descriptive and cite only official Glider documentation when referencing code samples.\n- When discussing Glider implementation, refer to helper functions by name and note that `query()` is defined without a return type annotation while returning those helper pipelines.\n- Describe the helper workflow exactly as in the official templates: `LIMIT_FUNCS = 1_000` inside `query()`, inline helper functions without type annotations (e.g., `def has_bridge_context(fn):`) that return booleans, and a final `vulnerable_funcs = Functions().exec(LIMIT_FUNCS)` chain referencing those helpers in order.\n- Emphasise API-first helper names that mirror the Nomad/unchecked-transfer examples (e.g., `has_unchecked_token_transfers`, `has_bridge_context`, `lacks_access_controls`), and align each blueprint step to those concrete helper responsibilities.\n- Include actionable insights that map back to evidence or heuristics from the report.\n- Treat the INTERNAL TEMPLATE HINTS as private context; never mention file names, paths, tags, or template identifiers in the output.\n- Do not include meta sections such as \"Reasoning\", \"Thoughts\", or any <think> tags in the final response."

/-- The fixed output-format requirements block of the prompt template. -/
def promptOutputFormat : String :=
  "Return Markdown with **exactly** the following sections, in order:\n1. # [Vulnerability Title] Breakdown\n2. ## Vulnerability Breakdown (summarize core flaw, root cause, and exploit flow)\n3. ## Evidence & Code Snippets (quote pertinent report snippets or on-chain code; include brief context)\n4. ## Glider Detection Blueprint (outline descriptive steps for Functions()/filters to confirm a true positive; cite only official Glider docs when referencing APIs)\n\nIn the Glider Detection Blueprint, anchor each step to the helper function(s) you would define (e.g., `detect_unprotected_withdrawals`, `matches_unprotected_withdraw`) and describe how `query()` delegates to them.\n\nUse bullet lists where helpful, otherwise concise paragraphs. Tie each detection recommendation back to observed behavior or references. Avoid placeholder text."

/-- Embedding of `buildPrompt` in `src/backend/generator.ts`. -/
def buildPrompt (context : BreakdownGenerationContext) : String :=
  let report := context.report
  let artifactsJoined := jsJoin "\n" (report.artifacts.map (fun a => "- " ++ a.label))
  let artifacts :=
    if artifactsJoined = "" then "None detected in the submitted report."
    else artifactsJoined
  let referenceDigest := buildReferenceDigest context.referenceBreakdowns
  let templateDigest := buildTemplateDigest context.templates
  let truncatedReport := truncate report.raw MAX_REPORT_LENGTH
  jsTrim
    ("\n" ++ promptRules ++
      "\n\n--- METADATA ---\n" ++ jsJoin "\n" (metadataLines report) ++
      "\n\n--- SUBMITTED REPORT (Markdown) ---\n" ++ truncatedReport ++
      "\n\n--- AVAILABLE ARTIFACTS ---\n" ++ artifacts ++
      "\n\n--- REFERENCE BREAKDOWNS (abbreviated) ---\n" ++ referenceDigest ++
      "\n\n--- INTERNAL TEMPLATE HINTS (DO NOT CITE) ---\n" ++ templateDigest ++
      "\n\n--- OUTPUT FORMAT REQUIREMENTS ---\n" ++ promptOutputFormat ++ "\n")

/-- Last starting index of `pat` as a substring of `s`, `-1` when absent
(embedding of JavaScript `lastIndexOf`). -/
def lastIndexOfPat (s pat : List Char) : Int :=
  match ((List.range (s.length + 1)).filter (fun i => pat.isPrefixOf (s.drop i))).getLast? with
  | some i => Int.ofNat i
  | none => -1

/-- Embedding of `summarize` in `src/backend/generator.ts`. -/
def summarize (text : String) (maxLength : Nat) : String :=
  if text.length ≤ maxLength then jsTrim text
  else
    let truncated := jsTake text maxLength
    let lastExtent : Int :=
      max (max (lastIndexOfPat truncated.data ".".data)
            (lastIndexOfPat truncated.data "\n\n".data))
        (lastIndexOfPat truncated.data "\n".data)
    let safeCut : Nat := if lastExtent > 200 then lastExtent.toNat else maxLength
    jsTrim (jsTake truncated safeCut) ++ "…"

/-- Embedding of `buildFallbackDocument`; thrown values are modelled by their
message string, so the `error instanceof Error` test always takes the
message branch. -/
def buildFallbackDocument (context : BreakdownGenerationContext) (error : String) : String :=
  let report := context.report
  let excerpt := summarize report.raw FALLBACK_SUMMARY_LENGTH
  let referenceTitles :=
    if context.referenceBreakdowns.isEmpty then "- None available"
    else jsJoin "\n" (context.referenceBreakdowns.map (fun r => "- " ++ r.title))
  let artifactList :=
    if report.artifacts.isEmpty then "- No code snippets detected"
    else jsJoin "\n" (report.artifacts.map (fun a => "- " ++ a.label))
  let failureNote := error
  jsJoin "\n\n"
    ["# " ++ report.metadata.title ++ " Breakdown",
     "## Vulnerability Breakdown",
     (if excerpt = "" then "Report content was not provided." else excerpt),
     "## Evidence & Code Snippets",
     artifactList,
     "## Glider Detection Blueprint",
     jsJoin "\n"
       ["Start with Glider helper functions that map to the failure mode:",
        "1. Filter externally callable entry points touching the vulnerable state.",
        "2. Inspect arithmetic or state transitions highlighted in the report.",
        "3. Correlate on-chain events or storage transitions that confirm the exploit path.",
        "",
        "Reference breakdowns you can adapt:",
        referenceTitles,
        "",
        "Consult official Glider documentation for Functions(), Instructions(), and Contracts() usage patterns."],
     "",
     "> AI fallback notice: " ++ failureNote]

/-- Embedding of `assembleDocument` in `src/backend/generator.ts`. -/
def assembleDocument (markdown : String) (skeleton : String) : String :=
  jsJoin "\n\n"
    [jsTrim markdown,
     "## Boilerplate Glider Skeleton",
     "Use this scaffold as a starting point while following official Glider examples.",
     "```python",
     skeleton,
     "```"]

/-- Find the first (lazy) case-insensitive occurrence of the closing
`</think>` tag, returning the remainder after it. -/
def findCloseThink : List Char → Option (List Char)
  | [] => none
  | c :: cs =>
    match stripCI "</think>".data (c :: cs) with
    | some rest => some rest
    | none => findCloseThink cs

theorem findCloseThink_length {l rest : List Char}
    (h : findCloseThink l = some rest) : rest.length < l.length := by
  induction l with
  | nil => simp [findCloseThink] at h
  | cons c cs ih =>
    rw [findCloseThink] at h
    cases hs : stripCI "</think>".data (c :: cs) with
    | some r =>
      rw [hs] at h
      simp at h
      have h2 := stripCI_length hs
      subst h
      simp only [List.length_cons] at h2 ⊢
      simp at h2
      omega
    | none =>
      rw [hs] at h
      have := ih h
      simp only [List.length_cons]
      omega

/-- First sanitization step: `replace(/<think>[\s\S]*?<\/think>/gi, '')` —
every opening tag with a closing tag is removed together with everything
between them.  The fuel argument only makes the recursion structural (a
removed span always shortens the input, so `length + 1` fuel is never
exhausted — see `stripThinkFuel_adequate`). -/
def stripThinkFuel : Nat → List Char → List Char
  | 0, l => l
  | _ + 1, [] => []
  | fuel + 1, c :: cs =>
    match stripCI ("<think>").data (c :: cs) with
    | some after =>
      match findCloseThink after with
      | some rest => stripThinkFuel fuel rest
      | none => c :: stripThinkFuel fuel cs
    | none => c :: stripThinkFuel fuel cs

def stripThinkBlocks (l : List Char) : List Char :=
  stripThinkFuel (l.length + 1) l

theorem stripThinkFuel_adequate :
    ∀ (f₁ : Nat) (l : List Char) (f₂ : Nat), l.length < f₁ → l.length < f₂ →
      stripThinkFuel f₁ l = stripThinkFuel f₂ l := by
  intro f₁
  induction f₁ with
  | zero => intro l f₂ h1 _; omega
  | succ f ih =>
    intro l f₂ h1 h2
    match l, f₂ with
    | _, 0 => omega
    | [], g + 1 => rfl
    | c :: cs, g + 1 =>
      have h1' : cs.length + 1 < f + 1 := by simpa using h1
      have h2' : cs.length + 1 < g + 1 := by simpa using h2
      rw [stripThinkFuel, stripThinkFuel]
      cases hs : stripCI ("<think>").data (c :: cs) with
      | some after =>
        dsimp only
        cases hf : findCloseThink after with
        | some rest =>
          dsimp only
          have hr1 : after.length + 7 = cs.length + 1 := by
            simpa using stripCI_length hs
          have hr2 := findCloseThink_length hf
          exact ih rest g (by omega) (by omega)
        | none =>
          dsimp only
          rw [ih cs g (by omega) (by omega)]
      | none =>
        dsimp only
        rw [ih cs g (by omega) (by omega)]

/-- Case-insensitive match of one of the labels
`Reasoning` / `Thoughts` / `Analysis` (ordered alternation; the labels have
pairwise distinct first letters, so at most one can apply). -/
def labelTail (l : List Char) : Option (List Char) :=
  match stripCI "reasoning".data l with
  | some r => some r
  | none =>
    match stripCI "thoughts".data l with
    | some r => some r
    | none => stripCI "analysis".data l

/-- After the label, `\s*:?.*$` never fails: skip the maximal whitespace run
(which may span newlines), an optional colon, then the rest of the current
line; the remainder of the input starts at the line break (or is empty). -/
def labelLineEnd (r : List Char) : List Char :=
  let r1 := r.dropWhile isWsChar
  let r2 := match dropLit [':'] r1 with
            | some t => t
            | none => r1
  r2.dropWhile (· ≠ '\n')

/-- Attempt of `/^\s*(#+\s*)?(Reasoning|Thoughts|Analysis)\s*:?.*$/im` at a
line start: leading whitespace (greedy; only its maximal run can be viable
because the label starts with a letter), an optional hash run with trailing
whitespace, the label, then the rest of the line.  Returns the input
remaining after the matched span. -/
def attemptLabelAt (l : List Char) : Option (List Char) :=
  let l1 := l.dropWhile isWsChar
  if l1.head? = some '#' then
    let l2 := (l1.dropWhile (· = '#')).dropWhile isWsChar
    (labelTail l2).map labelLineEnd
  else (labelTail l1).map labelLineEnd

theorem labelTail_length {l r : List Char} (h : labelTail l = some r) :
    r.length < l.length := by
  unfold labelTail at h
  cases h1 : stripCI "reasoning".data l with
  | some x =>
    rw [h1] at h
    simp at h
    have h2 := stripCI_length h1
    simp at h2
    subst h
    omega
  | none =>
    rw [h1] at h
    cases h2 : stripCI "thoughts".data l with
    | some x =>
      rw [h2] at h
      simp at h
      have h3 := stripCI_length h2
      simp at h3
      subst h
      omega
    | none =>
      rw [h2] at h
      have h3 := stripCI_length h
      simp at h3
      omega

theorem labelLineEnd_length (r : List Char) : (labelLineEnd r).length ≤ r.length := by
  unfold labelLineEnd
  have h1 : (r.dropWhile isWsChar).length ≤ r.length :=
    (List.dropWhile_suffix isWsChar).length_le
  cases hd : dropLit [':'] (r.dropWhile isWsChar) with
  | some t =>
    have h2 := dropLit_length hd
    have h3 : (t.dropWhile (· ≠ '\n')).length ≤ t.length :=
      (List.dropWhile_suffix _).length_le
    simp only [hd]
    simp at h2
    omega
  | none =>
    have h3 : ((r.dropWhile isWsChar).dropWhile (· ≠ '\n')).length ≤
        (r.dropWhile isWsChar).length :=
      (List.dropWhile_suffix _).length_le
    simp only [hd]
    omega

theorem labelTail_map_length {x rest : List Char}
    (h : (labelTail x).map labelLineEnd = some rest) : rest.length < x.length := by
  cases hl : labelTail x with
  | none => rw [hl] at h; simp at h
  | some r =>
    rw [hl] at h
    simp at h
    have h1 := labelTail_length hl
    have h2 := labelLineEnd_length r
    subst h
    omega

theorem attemptLabelAt_length {l rest : List Char}
    (h : attemptLabelAt l = some rest) : rest.length < l.length := by
  unfold attemptLabelAt at h
  have hl1 : (l.dropWhile isWsChar).length ≤ l.length :=
    (List.dropWhile_suffix isWsChar).length_le
  dsimp only at h
  split at h
  · have h2 := labelTail_map_length h
    have hd1 : (((l.dropWhile isWsChar).dropWhile (· = '#')).dropWhile isWsChar).length ≤
        ((l.dropWhile isWsChar).dropWhile (· = '#')).length :=
      (List.dropWhile_suffix isWsChar).length_le
    have hd2 : ((l.dropWhile isWsChar).dropWhile (· = '#')).length ≤
        (l.dropWhile isWsChar).length :=
      (List.dropWhile_suffix _).length_le
    omega
  · have h2 := labelTail_map_length h
    omega

/-- Second sanitization step:
`replace(/^\s*(#+\s*)?(Reasoning|Thoughts|Analysis)\s*:?.*$/gim, '')` —
matches can only start at line starts; after a removed span scanning resumes
at the end of the matched line.  The fuel argument only makes the recursion
structural (a removed span always shortens the input). -/
def stripLabeledFuel : Nat → List Char → Bool → List Char
  | 0, l, _ => l
  | _ + 1, [], _ => []
  | fuel + 1, c :: cs, atStart =>
    if atStart then
      match attemptLabelAt (c :: cs) with
      | some rest => stripLabeledFuel fuel rest false
      | none => c :: stripLabeledFuel fuel cs (c = '\n')
    else c :: stripLabeledFuel fuel cs (c = '\n')

def stripLabeledLines (l : List Char) (atStart : Bool) : List Char :=
  stripLabeledFuel (l.length + 1) l atStart

/-- Third sanitization step: `replace(/\n{3,}/g, '\n\n')` — every maximal
run of three or more newlines becomes exactly two.  The fuel argument only
makes the recursion structural (each step consumes at least one character). -/
def collapseNlFuel : Nat → List Char → List Char
  | 0, l => l
  | _ + 1, [] => []
  | fuel + 1, c :: cs =>
    if c = '\n' then
      let run := cs.takeWhile (· = '\n')
      (if run.length + 1 ≥ 3 then ['\n', '\n'] else '\n' :: run) ++
        collapseNlFuel fuel (cs.drop run.length)
    else c :: collapseNlFuel fuel cs

def collapseNewlines (l : List Char) : List Char :=
  collapseNlFuel (l.length + 1) l

theorem collapseNlFuel_adequate :
    ∀ (f₁ : Nat) (l : List Char) (f₂ : Nat), l.length < f₁ → l.length < f₂ →
      collapseNlFuel f₁ l = collapseNlFuel f₂ l := by
  intro f₁
  induction f₁ with
  | zero => intro l f₂ h1 _; omega
  | succ f ih =>
    intro l f₂ h1 h2
    match l, f₂ with
    | _, 0 => omega
    | [], g + 1 => rfl
    | c :: cs, g + 1 =>
      rw [collapseNlFuel, collapseNlFuel]
      by_cases hc : c = '\n'
      · rw [if_pos hc, if_pos hc]
        dsimp only
        have hd : (cs.drop (cs.takeWhile (· = '\n')).length).length ≤ cs.length := by
          simp
        simp only [List.length_cons] at h1 h2
        rw [ih (cs.drop (cs.takeWhile (· = '\n')).length) g (by omega) (by omega)]
      · rw [if_neg hc, if_neg hc]
        simp only [List.length_cons] at h1 h2
        rw [ih cs g (by omega) (by omega)]

/-- Embedding of `sanitizeModelResponse` in `src/backend/generator.ts`. -/
def sanitizeModelResponse (text : String) : String :=
  jsTrim (String.mk (collapseNewlines (stripLabeledLines (stripThinkBlocks text.data) true)))

/-- Oracles for the two generation backends: `hosted` models `generateText`
for a given model identifier and prompt, `localModel` models the
`callLocalModel` HTTP call for a given prompt.  A `.error` value stands for
any thrown failure (network error, non-success status, payload error),
identified by its message; a `.ok` value is the raw model output text. -/
structure Backends where
  hosted : String → String → Except String String
  localModel : String → Except String String

/-- Embedding of `tryGenerateMarkdown`: build the prompt, call the selected
backend, reject empty raw output, sanitize, reject output that is empty
after sanitization. -/
def tryGenerateMarkdown (be : Backends) (localEnabled : Bool)
    (context : BreakdownGenerationContext) (modelId : String) : Except String String :=
  let prompt := buildPrompt context
  let rawResult : Except String String :=
    if localEnabled then
      match be.localModel prompt with
      | .error e => .error e
      | .ok output =>
        if jsTrim output = "" then .error "Local model returned an empty response."
        else .ok output
    else
      match be.hosted modelId prompt with
      | .error e => .error e
      | .ok text =>
        if text = "" then .error "Model returned empty response."
        else .ok text
  match rawResult with
  | .error e => .error e
  | .ok rawOutput =>
    let cleaned := sanitizeModelResponse rawOutput
    if cleaned = "" then .error "Model returned empty response after sanitization."
    else .ok cleaned

/-- Embedding of `generateBreakdownDocument`, additionally returning the
ordered list of model identifiers for which a backend generation attempt was
made (the call trace of `tryGenerateMarkdown`).  `modelIdOpt` is
`options.modelId`; `localEnabled` is the `LOCAL_LLM_ENABLED` flag. -/
def generateBreakdownDocumentRun (be : Backends) (localEnabled : Bool)
    (context : BreakdownGenerationContext) (modelIdOpt : Option String) :
    String × List String :=
  let modelId := modelIdOpt.getD DEFAULT_MODEL_ID
  let skeleton := buildGliderSkeleton
  match tryGenerateMarkdown be localEnabled context modelId with
  | .ok markdown =>
    (jsTrim (assembleDocument markdown skeleton) ++ "\n", [modelId])
  | .error primaryError =>
    if ¬localEnabled ∧ modelId ≠ FALLBACK_MODEL_ID then
      match tryGenerateMarkdown be localEnabled context FALLBACK_MODEL_ID with
      | .ok markdown =>
        (jsTrim (assembleDocument markdown skeleton) ++ "\n", [modelId, FALLBACK_MODEL_ID])
      | .error fallbackError =>
        (jsTrim (assembleDocument (buildFallbackDocument context fallbackError) skeleton) ++ "\n",
          [modelId, FALLBACK_MODEL_ID])
    else
      (jsTrim (assembleDocument (buildFallbackDocument context primaryError) skeleton) ++ "\n",
        [modelId])

/-- The document returned by `generateBreakdownDocument` (the run without
its call trace). -/
def generateBreakdownDocument (be : Backends) (localEnabled : Bool)
    (context : BreakdownGenerationContext) (modelIdOpt : Option String) : String :=
  (generateBreakdownDocumentRun be localEnabled context modelIdOpt).1

/-- Response value of the `POST /api/generate` route handler. -/
structure RouteResponse where
  status : Nat
  error : Option String
  document : Option String
  fileName : Option String
deriving Repr, DecidableEq

/-- Embedding of the route handler in `src/app/api/generate/route.ts`.
`body` is the result of `request.json()` (a parse failure throws into the
catch block); the second component of the result records whether any
pipeline work (parsing, loading, generation) was performed.  The `!markdown`
guard treats an absent field and an empty string alike, so the absent case
is modelled by `none` and by `some ""` equally. -/
def postHandler (body : Except String (Option String × Option String))
    (templates : List GlideTemplate) (references : List BreakdownReference)
    (be : Backends) (localEnabled : Bool) (date : String) :
    RouteResponse × Bool :=
  match body with
  | .error e =>
    ({ status := 500, error := some e, document := none, fileName := none }, false)
  | .ok (markdownOpt, sourceOpt) =>
    if markdownOpt.getD "" = "" then
      ({ status := 400, error := some "Missing markdown payload",
         document := none, fileName := none }, false)
    else
      let markdown := markdownOpt.getD ""
      let parsedReport := parseVulnerabilityReport markdown sourceOpt date
      let document :=
        generateBreakdownDocument be localEnabled
          { report := parsedReport, referenceBreakdowns := references,
            templates := templates } none
      ({ status := 200, error := none, document := some document,
         fileName := some "vulnerability-breakdown.md" }, true)

theorem length_mk (l : List Char) : (String.mk l).length = l.length := rfl

theorem truncate_length_le (s : String) (n : Nat) : (truncate s n).length ≤ n + 16 := by
  unfold truncate
  split
  · next h => exact le_trans h (by omega)
  · rw [String.length_append]
    have h1 : (jsTake s n).length = min n s.data.length := by
      simp [jsTake, length_mk]
    have h2 : ("\n... (truncated)" : String).length = 16 := rfl
    omega

theorem truncate_length_ge (s : String) (n : Nat) :
    min s.length n ≤ (truncate s n).length := by
  unfold truncate
  split
  · next h => omega
  · rw [String.length_append]
    have h1 : (jsTake s n).length = min n s.data.length := by
      simp [jsTake, length_mk]
    have h2 : s.data.length = s.length := rfl
    omega

theorem truncate_ne_empty (s : String) (n : Nat) (hs : s ≠ "") (hn : 1 ≤ n) :
    truncate s n ≠ "" := by
  intro h
  have h1 : (truncate s n).length = 0 := by rw [h]; rfl
  have h2 := truncate_length_ge s n
  have h3 : 1 ≤ s.length := by
    cases hd : s.data with
    | nil =>
      exact absurd (String.ext hd) hs
    | cons c t =>
      have : s.length = s.data.length := rfl
      rw [this, hd]
      simp
  rw [h1] at h2
  omega

theorem includedOriginalChars_le (rs : List BreakdownReference) :
    ∀ c, includedOriginalChars rs c ≤ MAX_TOTAL_REFERENCE_LENGTH - c := by
  induction rs with
  | nil => intro c; simp [includedOriginalChars]
  | cons r rs ih =>
    intro c
    unfold includedOriginalChars
    split
    · simp
    · next hc =>
      have h2 := truncate_length_ge r.content
        (min MAX_REFERENCE_LENGTH (MAX_TOTAL_REFERENCE_LENGTH - c))
      have h3 := ih
        (c + (truncate r.content (min MAX_REFERENCE_LENGTH (MAX_TOTAL_REFERENCE_LENGTH - c))).length)
      simp only [MAX_TOTAL_REFERENCE_LENGTH, MAX_REFERENCE_LENGTH] at *
      omega

theorem referenceClips_length_le (rs : List BreakdownReference) :
    ∀ c, (referenceClips rs c).length ≤ rs.length := by
  induction rs with
  | nil => intro c; simp [referenceClips]
  | cons r rs ih =>
    intro c
    unfold referenceClips
    split
    · simp
    · simpa using ih _

theorem referenceClips_item_le (rs : List BreakdownReference) :
    ∀ c, ∀ p ∈ referenceClips rs c, p.2.length ≤ MAX_REFERENCE_LENGTH + 16 := by
  induction rs with
  | nil => intro c p hp; simp [referenceClips] at hp
  | cons r rs ih =>
    intro c p hp
    unfold referenceClips at hp
    split at hp
    · simp at hp
    · simp only [List.mem_cons] at hp
      cases hp with
      | inl h =>
        subst h
        have h1 := truncate_length_le r.content
          (min MAX_REFERENCE_LENGTH (MAX_TOTAL_REFERENCE_LENGTH - c))
        have h2 : min MAX_REFERENCE_LENGTH (MAX_TOTAL_REFERENCE_LENGTH - c) ≤
            MAX_REFERENCE_LENGTH := Nat.min_le_left _ _
        dsimp only
        omega
      | inr h => exact ih _ p h

theorem referenceClips_spec (rs : List BreakdownReference) :
    ∀ c i, i < (referenceClips rs c).length →
      ∃ cap r, 1 ≤ cap ∧ cap ≤ MAX_REFERENCE_LENGTH ∧ rs[i]? = some r ∧
        (referenceClips rs c)[i]? = some (r, truncate r.content cap) ∧
        (r.content ≠ "" → truncate r.content cap ≠ "") := by
  induction rs with
  | nil => intro c i hi; simp [referenceClips] at hi
  | cons r rs ih =>
    intro c i hi
    unfold referenceClips at hi ⊢
    split at hi
    · simp at hi
    · next hc =>
      rw [if_neg hc]
      cases i with
      | zero =>
        refine ⟨min MAX_REFERENCE_LENGTH (MAX_TOTAL_REFERENCE_LENGTH - c), r, ?_, ?_, ?_, ?_, ?_⟩
        · simp only [MAX_TOTAL_REFERENCE_LENGTH, MAX_REFERENCE_LENGTH] at *
          omega
        · exact Nat.min_le_left _ _
        · simp
        · dsimp only
          simp
        · intro hne
          apply truncate_ne_empty _ _ hne
          simp only [MAX_TOTAL_REFERENCE_LENGTH, MAX_REFERENCE_LENGTH] at *
          omega
      | succ j =>
        simp only [List.length_cons] at hi
        have := ih (c + (truncate r.content
          (min MAX_REFERENCE_LENGTH (MAX_TOTAL_REFERENCE_LENGTH - c))).length) j
          (by omega)
        obtain ⟨cap, r', h1, h2, h3, h4, h5⟩ := this
        exact ⟨cap, r', h1, h2, by simpa using h3, by simpa using h4, h5⟩

/-- C2, amended: the digest includes references in order (clip `i` is a
`truncate` of reference `i`); every cap-induced clip keeps at least one and
at most 2500 characters of the original (never clipped to empty), the clip
string itself is at most 2500+16 characters long because a 16-character
truncation marker is appended; and the cumulative count of ORIGINAL
reference characters included never exceeds 9000 — but the clip strings
themselves (marker included) can exceed both caps, see the counterexample. -/
theorem referenceDigest_order_and_bounds (refs : List BreakdownReference) :
    (referenceClips refs 0).length ≤ refs.length ∧
    includedOriginalChars refs 0 ≤ MAX_TOTAL_REFERENCE_LENGTH ∧
    (∀ p ∈ referenceClips refs 0, p.2.length ≤ MAX_REFERENCE_LENGTH + 16) ∧
    (∀ i, i < (referenceClips refs 0).length →
      ∃ cap r, 1 ≤ cap ∧ cap ≤ MAX_REFERENCE_LENGTH ∧ refs[i]? = some r ∧
        (referenceClips refs 0)[i]? = some (r, truncate r.content cap) ∧
        (r.content ≠ "" → truncate r.content cap ≠ "")) := by
  refine ⟨referenceClips_length_le refs 0, ?_, referenceClips_item_le refs 0,
    referenceClips_spec refs 0⟩
  have := includedOriginalChars_le refs 0
  omega

theorem truncate_length_of_gt {s : String} {n : Nat} (h : n < s.length) :
    (truncate s n).length = n + 16 := by
  unfold truncate
  rw [if_neg (by omega)]
  rw [String.length_append]
  have h1 : (jsTake s n).length = min n s.data.length := by
    simp [jsTake, length_mk]
  have h2 : ("\n... (truncated)" : String).length = 16 := rfl
  have h3 : s.data.length = s.length := rfl
  omega

theorem referenceClips_cons (r : BreakdownReference) (rs : List BreakdownReference)
    (c : Nat) (h : ¬ MAX_TOTAL_REFERENCE_LENGTH ≤ c) :
    referenceClips (r :: rs) c =
      (r, truncate r.content (min MAX_REFERENCE_LENGTH (MAX_TOTAL_REFERENCE_LENGTH - c))) ::
        referenceClips rs
          (c + (truncate r.content
            (min MAX_REFERENCE_LENGTH (MAX_TOTAL_REFERENCE_LENGTH - c))).length) := by
  rw [referenceClips, if_neg h]

/-- A reference text one character longer than the per-item cap. -/
def overlongContent : String := String.mk (List.replicate 2501 'a')

theorem overlongContent_length : overlongContent.length = 2501 := by
  rw [overlongContent, length_mk, List.length_replicate]

/-- Four references, each longer than the per-item cap. -/
def overlongRefs : List BreakdownReference :=
  [⟨"r1", "t1", overlongContent⟩,
   ⟨"r2", "t2", overlongContent⟩,
   ⟨"r3", "t3", overlongContent⟩,
   ⟨"r4", "t4", overlongContent⟩]

theorem overlongClips_eq :
    referenceClips overlongRefs 0 =
      [(⟨"r1", "t1", overlongContent⟩, truncate overlongContent 2500),
       (⟨"r2", "t2", overlongContent⟩, truncate overlongContent 2500),
       (⟨"r3", "t3", overlongContent⟩, truncate overlongContent 2500),
       (⟨"r4", "t4", overlongContent⟩, truncate overlongContent 1452)] := by
  have hfull : (truncate overlongContent 2500).length = 2516 :=
    truncate_length_of_gt (by rw [overlongContent_length]; omega)
  rw [overlongRefs]
  rw [referenceClips_cons _ _ _ (by decide)]
  have hm0 : min MAX_REFERENCE_LENGTH (MAX_TOTAL_REFERENCE_LENGTH - 0) = 2500 := by decide
  simp only [hm0, hfull]
  rw [referenceClips_cons _ _ _ (by decide)]
  have hm1 : min MAX_REFERENCE_LENGTH (MAX_TOTAL_REFERENCE_LENGTH - (0 + 2516)) = 2500 := by
    decide
  simp only [hm1, hfull]
  rw [referenceClips_cons _ _ _ (by decide)]
  have hm2 : min MAX_REFERENCE_LENGTH (MAX_TOTAL_REFERENCE_LENGTH - (0 + 2516 + 2516)) =
      2500 := by decide
  simp only [hm2, hfull]
  rw [referenceClips_cons _ _ _ (by decide)]
  have hm3 : min MAX_REFERENCE_LENGTH
      (MAX_TOTAL_REFERENCE_LENGTH - (0 + 2516 + 2516 + 2516)) = 1452 := by decide
  simp only [hm3]
  rfl

/-- C2, counterexample: the truncation marker is not charged against the
caps, so an included clip can be 2516 > 2500 characters long and the
cumulative included-reference text reaches 9016 > 9000 characters. -/
theorem referenceDigest_exceeds_caps :
    ((referenceClips overlongRefs 0).map (fun p => p.2.length)).sum = 9016 ∧
    ¬ (((referenceClips overlongRefs 0).map (fun p => p.2.length)).sum ≤
        MAX_TOTAL_REFERENCE_LENGTH) ∧
    ∃ p ∈ referenceClips overlongRefs 0, ¬ (p.2.length ≤ MAX_REFERENCE_LENGTH) := by
  have hfull : (truncate overlongContent 2500).length = 2516 :=
    truncate_length_of_gt (by rw [overlongContent_length]; omega)
  have hlast : (truncate overlongContent 1452).length = 1468 :=
    truncate_length_of_gt (by rw [overlongContent_length]; omega)
  have hsum : ((referenceClips overlongRefs 0).map (fun p => p.2.length)).sum = 9016 := by
    rw [overlongClips_eq]
    simp [hfull, hlast]
  refine ⟨hsum, by rw [hsum]; decide, ?_⟩
  refine ⟨(⟨"r1", "t1", overlongContent⟩, truncate overlongContent 2500), ?_, ?_⟩
  · rw [overlongClips_eq]; simp
  · simp only [MAX_REFERENCE_LENGTH]
    omega

/-- Witness for the amended C2 theorem at a concrete reference list. -/
theorem referenceDigest_order_and_bounds_witness :
    (referenceClips overlongRefs 0).length ≤ overlongRefs.length ∧
    includedOriginalChars overlongRefs 0 ≤ MAX_TOTAL_REFERENCE_LENGTH ∧
    (∀ p ∈ referenceClips overlongRefs 0, p.2.length ≤ MAX_REFERENCE_LENGTH + 16) ∧
    (∀ i, i < (referenceClips overlongRefs 0).length →
      ∃ cap r, 1 ≤ cap ∧ cap ≤ MAX_REFERENCE_LENGTH ∧ overlongRefs[i]? = some r ∧
        (referenceClips overlongRefs 0)[i]? = some (r, truncate r.content cap) ∧
        (r.content ≠ "" → truncate r.content cap ≠ "")) :=
  referenceDigest_order_and_bounds overlongRefs

theorem stripCI_lower {pat l rest : List Char} (h : stripCI pat l = some rest) :
    lowerChars (l.take pat.length) = pat := by
  induction pat generalizing l with
  | nil => simp [lowerChars]
  | cons p ps ih =>
    match l with
    | [] => simp [stripCI] at h
    | c :: cs =>
      rw [stripCI] at h
      split at h
      · next heq =>
        simp only [List.length_cons, List.take_succ_cons, lowerChars, List.map_cons]
        have := ih h
        simp only [lowerChars] at this
        rw [heq, this]
      · simp at h

theorem matchLevel_lower {l : List Char} {q : List Char × List Char}
    (h : matchLevel l = some q) :
    lowerChars q.1 ∈ [("critical" : String).data, "high".data, "medium".data, "low".data] := by
  unfold matchLevel at h
  cases h1 : stripCI "critical".data l with
  | some rest =>
    rw [h1] at h
    simp at h
    have hl := stripCI_lower h1
    rw [← h]
    simp only [List.mem_cons]
    left
    exact hl
  | none =>
    rw [h1] at h
    cases h2 : stripCI "high".data l with
    | some rest =>
      rw [h2] at h
      simp at h
      have hl := stripCI_lower h2
      rw [← h]
      simp only [List.mem_cons]
      right; left
      exact hl
    | none =>
      rw [h2] at h
      cases h3 : stripCI "medium".data l with
      | some rest =>
        rw [h3] at h
        simp at h
        have hl := stripCI_lower h3
        rw [← h]
        simp only [List.mem_cons]
        right; right; left
        exact hl
      | none =>
        rw [h3] at h
        cases h4 : stripCI "low".data l with
        | some rest =>
          rw [h4] at h
          simp at h
          have hl := stripCI_lower h4
          rw [← h]
          simp only [List.mem_cons]
          right; right; right; left
          exact hl
        | none => rw [h4] at h; simp at h

theorem attemptInlineLevelFirstAt_mem {prev : Option Char} {l cap : List Char}
    (h : attemptInlineLevelFirstAt prev l = some cap) :
    lowerChars cap ∈ [("critical" : String).data, "high".data, "medium".data, "low".data] := by
  unfold attemptInlineLevelFirstAt at h
  dsimp only at h
  split at h
  · cases hm : matchLevel l with
    | none => rw [hm] at h; simp at h
    | some q =>
      rw [hm] at h
      have hq := matchLevel_lower hm
      dsimp only at h
      split at h
      · simp at h
      · split at h
        · simp at h
        · split at h
          · simp at h
            subst h
            exact hq
          · simp at h
  · simp at h

theorem attemptKeywordFirstAt_mem {l cap : List Char}
    (h : attemptKeywordFirstAt l = some cap) :
    lowerChars cap ∈ [("critical" : String).data, "high".data, "medium".data, "low".data] := by
  unfold attemptKeywordFirstAt at h
  dsimp only at h
  split at h
  · simp at h
  · split at h
    · simp at h
    · split at h
      · simp at h
      · split at h
        · simp at h
          subst h
          rename_i heq _
          exact matchLevel_lower heq
        · simp at h

theorem findInlineLevelFirst_mem :
    ∀ (prev : Option Char) (l w : List Char), findInlineLevelFirst prev l = some w →
      lowerChars w ∈ [("critical" : String).data, "high".data, "medium".data, "low".data] := by
  intro prev l
  induction l generalizing prev with
  | nil =>
    intro w h
    rw [findInlineLevelFirst] at h
    exact attemptInlineLevelFirstAt_mem h
  | cons c cs ih =>
    intro w h
    rw [findInlineLevelFirst] at h
    cases ha : attemptInlineLevelFirstAt prev (c :: cs) with
    | some cap =>
      rw [ha] at h
      simp at h
      subst h
      exact attemptInlineLevelFirstAt_mem ha
    | none =>
      rw [ha] at h
      exact ih (some c) w h

theorem findKeywordFirst_mem :
    ∀ (l w : List Char), findKeywordFirst l = some w →
      lowerChars w ∈ [("critical" : String).data, "high".data, "medium".data, "low".data] := by
  intro l
  induction l with
  | nil => intro w h; simp [findKeywordFirst] at h
  | cons c cs ih =>
    intro w h
    rw [findKeywordFirst] at h
    cases ha : attemptKeywordFirstAt (c :: cs) with
    | some cap =>
      rw [ha] at h
      simp at h
      subst h
      exact attemptKeywordFirstAt_mem ha
    | none =>
      rw [ha] at h
      exact ih w h

theorem toLower_idem (c : Char) : c.toLower.toLower = c.toLower := by
  by_cases h : c.toNat ≥ 65 ∧ c.toNat ≤ 90
  · have hv : Char.isValidCharNat (c.toNat + 32) := by
      left
      have : c.toNat ≤ 90 := h.2
      omega
    have h2 : (Char.ofNat (c.toNat + 32)).toNat = c.toNat + 32 := by
      rw [Char.ofNat, dif_pos hv]
      rfl
    have hlow : c.toLower = Char.ofNat (c.toNat + 32) := by
      unfold Char.toLower
      dsimp only
      rw [if_pos h]
    rw [hlow]
    conv_lhs => unfold Char.toLower
    dsimp only
    rw [if_neg (by rw [h2]; omega)]
  · have hid : c.toLower = c := by
      unfold Char.toLower
      dsimp only
      rw [if_neg h]
    rw [hid, hid]

theorem lowerChars_idem (l : List Char) : lowerChars (lowerChars l) = lowerChars l := by
  induction l with
  | nil => rfl
  | cons c cs ih =>
    simp only [lowerChars, List.map_cons] at *
    rw [ih, toLower_idem]

/-- C3, amended: when the explicit `## Severity` / `## Impact` section regex
does not match, the severity is absent or one of the four lower-cased levels
(the inline keyword patterns can only capture those); the explicit-section
path instead lower-cases whatever word follows the header — see the
counterexample; severity, when present, is always lower-case.  The two
concrete behaviours claimed for `parseVulnerabilityReport` hold. -/
theorem severity_amended :
    (∀ md : String, findExplicitSeverity md.data = none →
      extractSeverity md = none ∨
        extractSeverity md ∈ [some "critical", some "high", some "medium", some "low"]) ∧
    (∀ md s, extractSeverity md = some s → jsToLower s = s) ∧
    (parseVulnerabilityReport "## Severity\nHigh" none "2026-10-12").metadata.severity =
      some "high" ∧
    (parseVulnerabilityReport "# Reentrancy in Vault\nNothing here." none
      "2026-10-12").metadata.severity = none := by
  refine ⟨?_, ?_, by decide, by decide⟩
  · intro md hex
    unfold extractSeverity
    rw [hex]
    cases hf : findInlineLevelFirst none md.data with
    | some w =>
      right
      have hm := findInlineLevelFirst_mem none md.data w hf
      simp only [List.mem_cons, List.not_mem_nil, or_false] at hm ⊢
      rcases hm with h | h | h | h
      · left; rw [h]
      · right; left; rw [h]
      · right; right; left; rw [h]
      · right; right; right; rw [h]
    | none =>
      cases hk : findKeywordFirst md.data with
      | some w =>
        right
        have hm := findKeywordFirst_mem md.data w hk
        simp only [List.mem_cons, List.not_mem_nil, or_false] at hm ⊢
        rcases hm with h | h | h | h
        · left; rw [h]
        · right; left; rw [h]
        · right; right; left; rw [h]
        · right; right; right; rw [h]
      | none => left; rfl
  · intro md s h
    unfold extractSeverity at h
    have lower_of : ∀ w : List Char, String.mk (lowerChars w) = s → jsToLower s = s := by
      intro w hw
      rw [← hw]
      unfold jsToLower
      rw [show (String.mk (lowerChars w)).data = lowerChars w from rfl]
      rw [lowerChars_idem]
    cases h1 : findExplicitSeverity md.data with
    | some w =>
      rw [h1] at h
      simp at h
      exact lower_of w h
    | none =>
      rw [h1] at h
      cases h2 : findInlineLevelFirst none md.data with
      | some w =>
        rw [h2] at h
        simp at h
        exact lower_of w h
      | none =>
        rw [h2] at h
        cases h3 : findKeywordFirst md.data with
        | some w =>
          rw [h3] at h
          simp at h
          exact lower_of w h
        | none => rw [h3] at h; simp at h

/-- C3, counterexample: an explicit severity section whose value word is not
one of the four levels is captured verbatim (lower-cased), so the parsed
severity can lie outside the claimed value set. -/
theorem severity_counterexample :
    (parseVulnerabilityReport "## Severity\nBogus" none "2026-10-12").metadata.severity =
      some "bogus" ∧
    ¬ ((parseVulnerabilityReport "## Severity\nBogus" none
          "2026-10-12").metadata.severity = none ∨
       (parseVulnerabilityReport "## Severity\nBogus" none
          "2026-10-12").metadata.severity ∈
         [some "critical", some "high", some "medium", some "low"]) := by
  constructor
  · decide
  · decide

/-- Witness for the amended C3 theorem, discharging its hypotheses at
concrete inputs. -/
theorem severity_amended_witness :
    (findExplicitSeverity ("Plain report with no levels." : String).data = none ∧
      (extractSeverity "Plain report with no levels." = none ∨
        extractSeverity "Plain report with no levels." ∈
          [some "critical", some "high", some "medium", some "low"])) ∧
    (extractSeverity "High risk of loss" = some "high" ∧
      jsToLower "high" = "high") :=
  ⟨⟨by decide, severity_amended.1 "Plain report with no levels." (by decide)⟩,
    ⟨by decide, severity_amended.2.1 "High risk of loss" "high" (by decide)⟩⟩

/-- The closed tag set of the vulnerability-type classifier. -/
def vulnTypeTags : List String :=
  ["reentrancy", "access-control", "slippage", "oracle", "unchecked-return",
   "validation", "calculation", "dos", "deadline", "front-running",
   "token-transfer", "liquidity", "bridge", "unknown"]

theorem find?_tag_mem {f : (String × (String → Bool)) → Bool}
    {p : String × (String → Bool)} (h : vulnTypePatterns.find? f = some p) :
    p.1 ∈ vulnTypeTags := by
  have hp := List.mem_of_find?_eq_some h
  simp only [vulnTypePatterns, List.mem_cons, List.not_mem_nil, or_false] at hp
  rcases hp with rfl | rfl | rfl | rfl | rfl | rfl | rfl | rfl | rfl | rfl | rfl | rfl | rfl <;>
    simp [vulnTypeTags]

theorem extractVulnType_mem (title md : String) :
    extractVulnType title md ∈ vulnTypeTags := by
  unfold extractVulnType
  dsimp only
  cases h1 : vulnTypePatterns.find? (fun p => p.2 (jsToLower title)) with
  | some p => exact find?_tag_mem h1
  | none =>
    cases h2 : vulnTypePatterns.find? (fun p => p.2 (jsTake md 500)) with
    | some p => exact find?_tag_mem h2
    | none => simp [vulnTypeTags]

theorem extractVulnType_access_control (title md : String)
    (hac : accessControlTest (jsToLower title) = true)
    (hre : reentrancyTest (jsToLower title) = false) :
    extractVulnType title md = "access-control" := by
  unfold extractVulnType
  dsimp only
  have hfind : vulnTypePatterns.find? (fun p => p.2 (jsToLower title)) =
      some ("access-control", accessControlTest) := by
    simp [vulnTypePatterns, List.find?_cons, hac, hre]
  rw [hfind]

theorem extractVulnType_default (title md : String)
    (h1 : ∀ p ∈ vulnTypePatterns, p.2 (jsToLower title) = false)
    (h2 : ∀ p ∈ vulnTypePatterns, p.2 (jsTake md 500) = false) :
    extractVulnType title md = "unknown" := by
  unfold extractVulnType
  dsimp only
  rw [List.find?_eq_none.mpr (fun p hp => by simp [h1 p hp]),
    List.find?_eq_none.mpr (fun p hp => by simp [h2 p hp])]

theorem extractVulnType_body_cap (title md : String) :
    extractVulnType title md = extractVulnType title (jsTake md 500) := by
  unfold extractVulnType
  dsimp only
  have h : jsTake (jsTake md 500) 500 = jsTake md 500 := by
    unfold jsTake
    rw [show (String.mk (md.data.take 500)).data = md.data.take 500 from rfl]
    rw [List.take_take]
    simp
  rw [h]

/-- C4: the vulnerability-type tag is always one of the closed tag set (never
absent, `"unknown"` as default); the ordered scan is first-match-wins on the
lower-cased title (an access-control cue beats a later validation cue
whenever the earlier reentrancy pattern does not fire), a title containing
both cues classifies as access-control for every body; the body is consulted
only through its first 500 characters; when nothing matches, the tag is
exactly `"unknown"`. -/
theorem vulnType_first_match_wins :
    (∀ md src date, (parseVulnerabilityReport md src date).metadata.vulnType ∈ vulnTypeTags) ∧
    (∀ title md, accessControlTest (jsToLower title) = true →
      reentrancyTest (jsToLower title) = false →
      extractVulnType title md = "access-control") ∧
    (∀ title md, (∀ p ∈ vulnTypePatterns, p.2 (jsToLower title) = false) →
      (∀ p ∈ vulnTypePatterns, p.2 (jsTake md 500) = false) →
      extractVulnType title md = "unknown") ∧
    (∀ md, extractVulnType "Admin can bypass missing validation checks" md =
      "access-control") ∧
    extractVulnType "Some plain title" "report about oracle feeds" = "oracle" ∧
    (∀ title md, extractVulnType title md = extractVulnType title (jsTake md 500)) := by
  refine ⟨?_, extractVulnType_access_control, extractVulnType_default, ?_, by decide,
    extractVulnType_body_cap⟩
  · intro md src date
    exact extractVulnType_mem (extractTitle md) md
  · intro md
    exact extractVulnType_access_control _ md (by decide) (by decide)

/-- Witness for C4, discharging the hypotheses at concrete inputs. -/
theorem vulnType_first_match_wins_witness :
    (accessControlTest (jsToLower "Unauthorized mint lacks checks") = true ∧
      reentrancyTest (jsToLower "Unauthorized mint lacks checks") = false ∧
      extractVulnType "Unauthorized mint lacks checks" "" = "access-control") ∧
    ((∀ p ∈ vulnTypePatterns, p.2 (jsToLower "A plain note") = false) ∧
      (∀ p ∈ vulnTypePatterns, p.2 (jsTake "says little" 500) = false) ∧
      extractVulnType "A plain note" "says little" = "unknown") :=
  ⟨⟨by decide, by decide,
      vulnType_first_match_wins.2.1 "Unauthorized mint lacks checks" "" (by decide) (by decide)⟩,
    ⟨by decide, by decide,
      vulnType_first_match_wins.2.2.1 "A plain note" "says little" (by decide) (by decide)⟩⟩

theorem dropLit_eq_append {pat l r : List Char} (h : dropLit pat l = some r) :
    l = pat ++ r := by
  induction pat generalizing l with
  | nil => simp [dropLit] at h; simp [h]
  | cons p ps ih =>
    match l with
    | [] => simp [dropLit] at h
    | c :: cs =>
      rw [dropLit] at h
      split at h
      · next hc =>
        subst hc
        simp [ih h]
      · simp at h

theorem blockAttempt_none_of_head {c : Char} (cs : List Char) (hc : c ≠ '`') :
    blockAttempt (c :: cs) = none := by
  unfold blockAttempt
  have h : dropLit "```".data (c :: cs) = none := by
    show dropLit ('`' :: '`' :: '`' :: []) (c :: cs) = none
    rw [dropLit, if_neg hc]
  rw [h]

theorem findBlockFrom_skip (a b : List Char) (ha : ∀ c ∈ a, c ≠ '`') :
    findBlockFrom (a ++ b) = findBlockFrom b := by
  induction a with
  | nil => simp
  | cons x xs ih =>
    rw [List.cons_append, findBlockFrom,
      blockAttempt_none_of_head (xs ++ b) (ha x (by simp))]
    exact ih (fun c hc => ha c (by simp [hc]))

theorem takeWhile_all_append {p : Char → Bool} (a : List Char) (c : Char) (b : List Char)
    (ha : ∀ x ∈ a, p x = true) (hc : p c = false) :
    (a ++ c :: b).takeWhile p = a := by
  induction a with
  | nil => simp [List.takeWhile_cons, hc]
  | cons x xs ih =>
    simp only [List.cons_append, List.takeWhile_cons, ha x (by simp)]
    rw [ih (fun y hy => ha y (by simp [hy]))]
    simp

theorem splitAtTriple_render (body rest : List Char) (hb : ∀ c ∈ body, c ≠ '`') :
    splitAtTriple (body ++ '`' :: '`' :: '`' :: rest) = some (body, rest) := by
  induction body with
  | nil =>
    rw [List.nil_append, splitAtTriple]
    have h : dropLit "```".data ('`' :: '`' :: '`' :: rest) = some rest := by
      show dropLit ('`' :: '`' :: '`' :: []) _ = _
      simp [dropLit]
    rw [h]
  | cons x xs ih =>
    rw [List.cons_append, splitAtTriple]
    have hx : dropLit "```".data (x :: (xs ++ '`' :: '`' :: '`' :: rest)) = none := by
      show dropLit ('`' :: '`' :: '`' :: []) _ = _
      rw [dropLit, if_neg (hb x (by simp))]
    rw [hx, ih (fun c hc => hb c (by simp [hc]))]
    rfl

theorem blockAttempt_render (lang body rest : List Char)
    (hlang : ∀ c ∈ lang, isWordChar c = true)
    (hbody : ∀ c ∈ body, c ≠ '`') :
    blockAttempt ('`' :: '`' :: '`' :: (lang ++ '\n' :: (body ++ '`' :: '`' :: '`' :: rest))) =
      some (if lang.isEmpty then none else some lang, body, rest) := by
  unfold blockAttempt
  have h1 : dropLit "```".data
      ('`' :: '`' :: '`' :: (lang ++ '\n' :: (body ++ '`' :: '`' :: '`' :: rest))) =
      some (lang ++ '\n' :: (body ++ '`' :: '`' :: '`' :: rest)) := by
    show dropLit ('`' :: '`' :: '`' :: []) _ = _
    simp [dropLit]
  rw [h1]
  dsimp only
  have h2 : (lang ++ '\n' :: (body ++ '`' :: '`' :: '`' :: rest)).takeWhile isWordChar =
      lang := takeWhile_all_append lang '\n' _ hlang (by decide)
  rw [h2, List.drop_left]
  have h4 : dropLit ['\n'] ('\n' :: (body ++ '`' :: '`' :: '`' :: rest)) =
      some (body ++ '`' :: '`' :: '`' :: rest) := by
    simp [dropLit]
  rw [h4]
  dsimp only
  rw [splitAtTriple_render body rest hbody]

theorem extractBlocks_none {l : List Char} (h : findBlockFrom l = none) :
    extractBlocks l = [] := by
  rw [extractBlocks]
  split
  · rfl
  · next heq => rw [h] at heq; simp at heq

theorem extractBlocks_some {l rest : List Char} {lang : Option (List Char)}
    {content : List Char} (h : findBlockFrom l = some (lang, content, rest)) :
    extractBlocks l = (lang, content) :: extractBlocks rest := by
  rw [extractBlocks]
  split
  · next heq => rw [h] at heq; simp at heq
  · next lang' content' rest' heq =>
    rw [h] at heq
    simp at heq
    obtain ⟨h1, h2, h3⟩ := heq
    rw [h1, h2, h3]

/-- Character-level serialization of one fenced code block followed by its
trailing text, as the claim's "markdown containing fenced code blocks". -/
def renderBlockChars (b : Option (List Char) × List Char × List Char) : List Char :=
  '`' :: '`' :: '`' :: ((b.1.getD []) ++ '\n' :: (b.2.1 ++ '`' :: '`' :: '`' :: b.2.2))

/-- Well-formedness of one character-level block: the language tag, when
present, is a nonempty word; the body and the trailing text contain no
backtick. -/
def wfBlockChars (b : Option (List Char) × List Char × List Char) : Prop :=
  (∀ w, b.1 = some w → w ≠ [] ∧ ∀ c ∈ w, isWordChar c = true) ∧
    (∀ c ∈ b.2.1, c ≠ '`') ∧ (∀ c ∈ b.2.2, c ≠ '`')

theorem extractBlocks_render :
    ∀ (blocks : List (Option (List Char) × List Char × List Char)) (pre : List Char),
      (∀ c ∈ pre, c ≠ '`') → (∀ b ∈ blocks, wfBlockChars b) →
      extractBlocks (pre ++ (blocks.map renderBlockChars).join) =
        blocks.map (fun b => (b.1, b.2.1)) := by
  intro blocks
  induction blocks with
  | nil =>
    intro pre hpre _
    apply extractBlocks_none
    have h0 : ((([] : List (Option (List Char) × List Char × List Char))).map
        renderBlockChars).join = ([] : List Char) := rfl
    rw [h0, List.append_nil]
    have := findBlockFrom_skip pre [] hpre
    rw [List.append_nil] at this
    rw [this]
    rfl
  | cons b bs ih =>
    intro pre hpre hwf
    obtain ⟨hlang, hbody, hpost⟩ := hwf b (by simp)
    have hshape : pre ++ ((b :: bs).map renderBlockChars).join =
        pre ++ ('`' :: '`' :: '`' ::
          ((b.1.getD []) ++ '\n' :: (b.2.1 ++ '`' :: '`' :: '`' ::
            (b.2.2 ++ (bs.map renderBlockChars).join)))) := by
      simp [renderBlockChars, List.append_assoc]
    rw [hshape]
    have hlang' : ∀ c ∈ b.1.getD [], isWordChar c = true := by
      cases hb1 : b.1 with
      | none => simp
      | some w =>
        simp only [Option.getD_some]
        exact (hlang w hb1).2
    have hfind : findBlockFrom (pre ++ ('`' :: '`' :: '`' ::
        ((b.1.getD []) ++ '\n' :: (b.2.1 ++ '`' :: '`' :: '`' ::
          (b.2.2 ++ (bs.map renderBlockChars).join))))) =
        some (if (b.1.getD []).isEmpty then none else some (b.1.getD []),
          b.2.1, b.2.2 ++ (bs.map renderBlockChars).join) := by
      rw [findBlockFrom_skip pre _ hpre]
      rw [findBlockFrom]
      rw [blockAttempt_render _ _ _ hlang' hbody]
    rw [extractBlocks_some hfind]
    have hrest : extractBlocks (b.2.2 ++ (bs.map renderBlockChars).join) =
        bs.map (fun b => (b.1, b.2.1)) :=
      ih b.2.2 hpost (fun x hx => hwf x (by simp [hx]))
    rw [hrest]
    have htag : (if (b.1.getD []).isEmpty then none else some (b.1.getD [])) = b.1 := by
      cases hb1 : b.1 with
      | none => simp
      | some w =>
        simp only [Option.getD_some]
        rw [if_neg]
        simp [(hlang w hb1).1]
    rw [htag]
    simp

theorem dropLit_isPrefixOf {pat l r : List Char} (h : dropLit pat l = some r) :
    pat.isPrefixOf l = true := by
  rw [List.isPrefixOf_iff_prefix]
  exact ⟨r, (dropLit_eq_append h).symm⟩

theorem findBlockFrom_no_fence {l : List Char}
    (h : listContains l ("```").data = false) : findBlockFrom l = none := by
  induction l with
  | nil => rfl
  | cons c cs ih =>
    rw [listContains] at h
    simp only [Bool.or_eq_false_iff] at h
    rw [findBlockFrom]
    have ha : blockAttempt (c :: cs) = none := by
      cases hb : blockAttempt (c :: cs) with
      | none => rfl
      | some r =>
        exfalso
        unfold blockAttempt at hb
        cases hd : dropLit "```".data (c :: cs) with
        | none => rw [hd] at hb; simp at hb
        | some rest =>
          have := dropLit_isPrefixOf hd
          rw [this] at h
          simp at h
    rw [ha]
    exact ih h.2

/-- A fenced code block of the claim, at the string level: optional language
tag, block body, and the text following the closing fence. -/
structure FencedBlock where
  lang : Option String
  body : String
  post : String

def renderFencedBlock (b : FencedBlock) : String :=
  "```" ++ (b.lang.getD "") ++ "\n" ++ b.body ++ "```" ++ b.post

def renderFencedBlocksStr : List FencedBlock → String
  | [] => ""
  | b :: bs => renderFencedBlock b ++ renderFencedBlocksStr bs

/-- A markdown document made of leading text followed by fenced code blocks
with interleaved text — the claim's "input markdown containing N fenced code
blocks". -/
def renderFencedDocument (pre : String) (blocks : List FencedBlock) : String :=
  pre ++ renderFencedBlocksStr blocks

def fencedBlockChars (b : FencedBlock) : Option (List Char) × List Char × List Char :=
  (b.lang.map String.data, b.body.data, b.post.data)

def backtickFree (s : String) : Bool :=
  s.data.all (fun c => c != '`')

def wordTag : Option String → Bool
  | none => true
  | some w => (!(w == "")) && w.data.all isWordChar

def wfFencedBlock (b : FencedBlock) : Bool :=
  wordTag b.lang && backtickFree b.body && backtickFree b.post

theorem renderFencedBlock_data (b : FencedBlock) :
    (renderFencedBlock b).data = renderBlockChars (fencedBlockChars b) := by
  unfold renderFencedBlock renderBlockChars fencedBlockChars
  have h1 : ("```" : String).data = ['`', '`', '`'] := rfl
  have h2 : ("\n" : String).data = ['\n'] := rfl
  cases hb : b.lang with
  | none => simp [String.data_append, h1, h2]
  | some w => simp [String.data_append, h1, h2]

theorem renderFencedBlocksStr_data (blocks : List FencedBlock) :
    (renderFencedBlocksStr blocks).data =
      ((blocks.map fencedBlockChars).map renderBlockChars).join := by
  induction blocks with
  | nil => rfl
  | cons b bs ih =>
    have hjoin : (((b :: bs).map fencedBlockChars).map renderBlockChars).join =
        renderBlockChars (fencedBlockChars b) ++
          ((bs.map fencedBlockChars).map renderBlockChars).join := rfl
    rw [hjoin]
    rw [renderFencedBlocksStr, String.data_append, renderFencedBlock_data, ih]

theorem backtickFree_spec {s : String} (h : backtickFree s = true) :
    ∀ c ∈ s.data, c ≠ '`' := by
  intro c hc
  have := List.all_eq_true.mp h c hc
  simpa using this

theorem wfFencedBlock_chars {b : FencedBlock} (h : wfFencedBlock b = true) :
    wfBlockChars (fencedBlockChars b) := by
  unfold wfFencedBlock at h
  simp only [Bool.and_eq_true] at h
  obtain ⟨⟨htag, hbody⟩, hpost⟩ := h
  refine ⟨?_, backtickFree_spec hbody, backtickFree_spec hpost⟩
  intro w hw
  unfold fencedBlockChars at hw
  dsimp only at hw
  cases hl : b.lang with
  | none => rw [hl] at hw; simp at hw
  | some v =>
    rw [hl] at hw
    rw [show (some v).map String.data = some v.data from rfl] at hw
    have hw' : v.data = w := by
      injection hw
    rw [hl] at htag
    unfold wordTag at htag
    simp only [Bool.and_eq_true] at htag
    constructor
    · intro hnil
      have hv : v = "" := by
        apply String.ext
        rw [hw', hnil]
      rw [hv] at htag
      simp at htag
    · intro c hc
      apply List.all_eq_true.mp htag.2
      rw [hw']
      exact hc

/-- The label suffix for a declared language tag. -/
def langSuffix : Option String → String
  | some w => " (" ++ w ++ ")"
  | none => ""

/-- The artifact the claim mandates for block number `i` (0-based). -/
def expectedArtifact (i : Nat) (b : FencedBlock) : ParsedArtifact :=
  { label := "Code Snippet " ++ toString (i + 1) ++ langSuffix b.lang,
    content := jsTrim b.body }

/-- C5: for a markdown document containing N fenced code blocks (leading
text, then N blocks, each with optional word language tag, backtick-free
body and backtick-free interleaved text), the parsed artifacts are exactly N,
labelled `Code Snippet 1` … `Code Snippet N` in document order with the
language tag appended in parentheses exactly when present, each content the
trimmed block body; and a document with no triple-backtick fence yields no
artifacts. -/
theorem artifacts_track_fenced_blocks (pre : String) (blocks : List FencedBlock)
    (hpre : backtickFree pre = true) (hwf : blocks.all wfFencedBlock = true) :
    ((extractArtifacts (renderFencedDocument pre blocks)).length = blocks.length ∧
      ∀ i : Nat, (extractArtifacts (renderFencedDocument pre blocks))[i]? =
        blocks[i]?.map (expectedArtifact i)) ∧
    (∀ md : String, listContains md.data ("```").data = false →
      extractArtifacts md = []) := by
  have hblocks : extractBlocks (renderFencedDocument pre blocks).data =
      (blocks.map fencedBlockChars).map (fun b => (b.1, b.2.1)) := by
    have hdata : (renderFencedDocument pre blocks).data =
        pre.data ++ ((blocks.map fencedBlockChars).map renderBlockChars).join := by
      unfold renderFencedDocument
      rw [String.data_append, renderFencedBlocksStr_data]
    rw [hdata]
    refine extractBlocks_render _ _ (backtickFree_spec hpre) ?_
    intro b hb
    simp only [List.mem_map] at hb
    obtain ⟨fb, hfb, rfl⟩ := hb
    exact wfFencedBlock_chars (List.all_eq_true.mp hwf fb hfb)
  refine ⟨⟨?_, ?_⟩, ?_⟩
  · unfold extractArtifacts
    rw [hblocks]
    simp
  · intro i
    unfold extractArtifacts
    rw [hblocks]
    rw [List.getElem?_map, List.getElem?_enum]
    rw [List.getElem?_map, List.getElem?_map]
    cases hi : blocks[i]? with
    | none => simp
    | some b =>
      cases hl : b.lang with
      | none =>
        simp [fencedBlockChars, hl, expectedArtifact, langSuffix]
      | some w =>
        simp [fencedBlockChars, hl, expectedArtifact, langSuffix]
  · intro md h
    unfold extractArtifacts
    rw [extractBlocks_none (findBlockFrom_no_fence h)]
    rfl

/-- Witness for C5 at a concrete two-block document. -/
theorem artifacts_track_fenced_blocks_witness :
    backtickFree "intro\n" = true ∧
    ([⟨some "js", "let x = 1\n", "\nmid\n"⟩,
      ⟨none, "plain\n", "\ntail"⟩] : List FencedBlock).all wfFencedBlock = true ∧
    ((extractArtifacts (renderFencedDocument "intro\n"
        [⟨some "js", "let x = 1\n", "\nmid\n"⟩, ⟨none, "plain\n", "\ntail"⟩])).length = 2 ∧
      ∀ i : Nat, (extractArtifacts (renderFencedDocument "intro\n"
          [⟨some "js", "let x = 1\n", "\nmid\n"⟩, ⟨none, "plain\n", "\ntail"⟩]))[i]? =
        ([⟨some "js", "let x = 1\n", "\nmid\n"⟩,
          ⟨none, "plain\n", "\ntail"⟩] : List FencedBlock)[i]?.map (expectedArtifact i)) ∧
    (∀ md : String, listContains md.data ("```").data = false →
      extractArtifacts md = []) := by
  refine ⟨by decide, by decide, ?_⟩
  have h := artifacts_track_fenced_blocks "intro\n"
    [⟨some "js", "let x = 1\n", "\nmid\n"⟩, ⟨none, "plain\n", "\ntail"⟩]
    (by decide) (by decide)
  exact ⟨⟨h.1.1, h.1.2⟩, h.2⟩

theorem toLower_symbol {x d : Char} (hd : d.toNat < 65) (h : x.toLower = d) : x = d := by
  unfold Char.toLower at h
  dsimp only at h
  split at h
  · next hn =>
    exfalso
    have hv : Char.isValidCharNat (x.toNat + 32) := by
      left
      have : x.toNat ≤ 90 := hn.2
      omega
    have h2 : (Char.ofNat (x.toNat + 32)).toNat = x.toNat + 32 := by
      rw [Char.ofNat, dif_pos hv]
      rfl
    rw [h] at h2
    have : x.toNat ≥ 65 := hn.1
    omega
  · exact h

theorem stripCI_lt_none {x : Char} {ps : List Char} (xs : List Char) (hx : x ≠ '<') :
    stripCI ('<' :: ps) (x :: xs) = none := by
  rw [stripCI, if_neg]
  intro h
  exact hx (toLower_symbol (by decide) h)

theorem findCloseThink_skip (b c : List Char) (hb : ∀ x ∈ b, x ≠ '<') :
    findCloseThink (b ++ (("</think>").data ++ c)) = some c := by
  induction b with
  | nil =>
    rw [List.nil_append]
    rw [show ("</think>").data ++ c = '<' :: (("/think>").data ++ c) from rfl]
    rw [findCloseThink]
    have hs : stripCI ("</think>").data ('<' :: (("/think>").data ++ c)) = some c := rfl
    rw [hs]
  | cons x xs ih =>
    rw [List.cons_append, findCloseThink]
    rw [show ("</think>").data = '<' :: ("/think>").data from rfl]
    rw [stripCI_lt_none (xs ++ (("</think>").data ++ c)) (hb x (by simp))]
    exact ih (fun y hy => hb y (by simp [hy]))

theorem stripThinkBlocks_no_open {x : Char} {xs : List Char}
    (hx : stripCI ("<think>").data (x :: xs) = none) :
    stripThinkBlocks (x :: xs) = x :: stripThinkBlocks xs := by
  unfold stripThinkBlocks
  rw [show (x :: xs).length + 1 = (xs.length + 1) + 1 from by simp]
  rw [stripThinkFuel, hx]

theorem stripThinkBlocks_open {x : Char} {xs after rest : List Char}
    (hx : stripCI ("<think>").data (x :: xs) = some after)
    (hf : findCloseThink after = some rest) :
    stripThinkBlocks (x :: xs) = stripThinkBlocks rest := by
  unfold stripThinkBlocks
  rw [show (x :: xs).length + 1 = (xs.length + 1) + 1 from by simp]
  rw [stripThinkFuel, hx]
  dsimp only
  rw [hf]
  apply stripThinkFuel_adequate
  · have h1 := stripCI_length hx
    have h2 := findCloseThink_length hf
    simp at h1
    omega
  · omega

theorem stripThinkBlocks_removes (a b c : List Char)
    (ha : ∀ x ∈ a, x ≠ '<') (hb : ∀ x ∈ b, x ≠ '<') :
    stripThinkBlocks (a ++ (("<think>").data ++ (b ++ (("</think>").data ++ c)))) =
      a ++ stripThinkBlocks c := by
  induction a with
  | nil =>
    rw [List.nil_append, List.nil_append]
    rw [show ("<think>").data ++ (b ++ (("</think>").data ++ c)) =
      '<' :: (("think>").data ++ (b ++ (("</think>").data ++ c))) from rfl]
    have hx : stripCI ("<think>").data
        ('<' :: (("think>").data ++ (b ++ (("</think>").data ++ c)))) =
        some (b ++ (("</think>").data ++ c)) := rfl
    rw [stripThinkBlocks_open hx (findCloseThink_skip b c hb)]
  | cons x xs ih =>
    rw [List.cons_append]
    have hx : stripCI ("<think>").data
        (x :: (xs ++ (("<think>").data ++ (b ++ (("</think>").data ++ c))))) = none := by
      rw [show ("<think>").data = '<' :: ("think>").data from rfl]
      exact stripCI_lt_none _ (ha x (by simp))
    rw [stripThinkBlocks_no_open hx]
    rw [ih (fun y hy => ha y (by simp [hy]))]
    rfl

theorem collapseNewlines_cons_nonl {c : Char} (cs : List Char) (hc : c ≠ '\n') :
    collapseNewlines (c :: cs) = c :: collapseNewlines cs := by
  unfold collapseNewlines
  rw [show (c :: cs).length + 1 = (cs.length + 1) + 1 from by simp]
  rw [collapseNlFuel, if_neg hc]

theorem collapseNewlines_cons_nl (cs : List Char) :
    collapseNewlines ('\n' :: cs) =
      (if (cs.takeWhile (· = '\n')).length + 1 ≥ 3 then ['\n', '\n']
        else '\n' :: cs.takeWhile (· = '\n')) ++
        collapseNewlines (cs.drop (cs.takeWhile (· = '\n')).length) := by
  unfold collapseNewlines
  rw [show ('\n' :: cs).length + 1 = (cs.length + 1) + 1 from by simp]
  rw [collapseNlFuel, if_pos rfl]
  dsimp only
  congr 1
  apply collapseNlFuel_adequate
  · have h : (cs.drop (cs.takeWhile (· = '\n')).length).length ≤ cs.length := by
      simp
    omega
  · omega

theorem collapseNewlines_id (l : List Char) (h : ∀ x ∈ l, x ≠ '\n') :
    collapseNewlines l = l := by
  induction l with
  | nil => rfl
  | cons c cs ih =>
    rw [collapseNewlines_cons_nonl cs (h c (by simp))]
    rw [ih (fun x hx => h x (by simp [hx]))]

theorem takeWhile_false_nil {p : Char → Bool} (l : List Char)
    (h : ∀ x ∈ l, p x = false) : l.takeWhile p = [] := by
  cases l with
  | nil => rfl
  | cons c cs => simp [List.takeWhile_cons, h c (by simp)]

theorem takeWhile_nl_replicate (m : Nat) (b : List Char) (hb : ∀ x ∈ b, x ≠ '\n') :
    (List.replicate m '\n' ++ b).takeWhile (· = '\n') = List.replicate m '\n' := by
  induction m with
  | zero =>
    rw [List.replicate_zero, List.nil_append]
    exact takeWhile_false_nil b (fun x hx => by simp [hb x hx])
  | succ k ih =>
    rw [List.replicate_succ, List.cons_append, List.takeWhile_cons]
    simp only [if_pos rfl]
    rw [ih]
    simp

theorem collapseNewlines_run (a b : List Char) (n : Nat) (h3 : 3 ≤ n)
    (ha : ∀ x ∈ a, x ≠ '\n') (hb : ∀ x ∈ b, x ≠ '\n') :
    collapseNewlines (a ++ (List.replicate n '\n' ++ b)) = a ++ ('\n' :: '\n' :: b) := by
  induction a with
  | nil =>
    rw [List.nil_append, List.nil_append]
    obtain ⟨m, rfl⟩ : ∃ m, n = m + 1 := ⟨n - 1, by omega⟩
    rw [List.replicate_succ, List.cons_append]
    rw [collapseNewlines_cons_nl]
    rw [takeWhile_nl_replicate m b hb]
    rw [List.length_replicate]
    rw [if_pos (by omega)]
    have hdrop : (List.replicate m '\n' ++ b).drop m = b := by
      have := List.drop_left (List.replicate m '\n') b
      rw [List.length_replicate] at this
      exact this
    rw [hdrop, collapseNewlines_id b hb]
    rfl
  | cons x xs ih =>
    rw [List.cons_append, collapseNewlines_cons_nonl _ (ha x (by simp))]
    rw [ih (fun y hy => ha y (by simp [hy]))]
    rfl

/-- C6, amended: sanitization removes every `<think>…</think>` span with its
entire contents and collapses runs of three or more newlines to two; the
labelled-reasoning filter removes the matched span starting at the label's
line — exactly that line when a colon or text directly follows the label (as
in `## Reasoning: blah`), but its trailing `\s*` may swallow the following
line break and one subsequent line of text when the label ends its line, see
the counterexample. -/
theorem sanitize_amended :
    (∀ a b c : List Char, (∀ x ∈ a, x ≠ '<') → (∀ x ∈ b, x ≠ '<') →
      stripThinkBlocks (a ++ (("<think>").data ++ (b ++ (("</think>").data ++ c)))) =
        a ++ stripThinkBlocks c) ∧
    sanitizeModelResponse "x<think>abc\nsecret</think>y" = "xy" ∧
    sanitizeModelResponse "A\n## Reasoning: blah\nB" = "A\n\nB" ∧
    (∀ (a b : List Char) (n : Nat), 3 ≤ n → (∀ x ∈ a, x ≠ '\n') → (∀ x ∈ b, x ≠ '\n') →
      collapseNewlines (a ++ (List.replicate n '\n' ++ b)) = a ++ ('\n' :: '\n' :: b)) :=
  ⟨stripThinkBlocks_removes, by decide, by decide,
    fun a b n h3 ha hb => collapseNewlines_run a b n h3 ha hb⟩

/-- C6, counterexample: the labelled-reasoning filter is not per-line — with
no colon or text after the label, the greedy `\s*` crosses the line break
and `.*$` consumes the following line, so `keep me` is removed as well. -/
theorem sanitize_reasoning_not_per_line :
    sanitizeModelResponse "## Reasoning\nkeep me\nB" = "B" ∧
    sanitizeModelResponse "## Reasoning\nkeep me\nB" ≠ "keep me\nB" ∧
    listContains (sanitizeModelResponse "## Reasoning\nkeep me\nB").data
      ("keep me").data = false := by
  refine ⟨by decide, by decide, by decide⟩

/-- Witness for the amended C6 theorem, discharging its hypotheses at
concrete inputs. -/
theorem sanitize_amended_witness :
    ((∀ x ∈ ("pre ".data : List Char), x ≠ '<') ∧
      (∀ x ∈ ("hidden".data : List Char), x ≠ '<') ∧
      stripThinkBlocks (("pre ").data ++ (("<think>").data ++
          (("hidden").data ++ (("</think>").data ++ ("post").data)))) =
        ("pre ").data ++ stripThinkBlocks ("post").data) ∧
    (3 ≤ 4 ∧
      collapseNewlines (("a").data ++ (List.replicate 4 '\n' ++ ("b").data)) =
        ("a").data ++ ('\n' :: '\n' :: ("b").data)) :=
  ⟨⟨by decide, by decide,
      sanitize_amended.1 ("pre ").data ("hidden").data ("post").data
        (by decide) (by decide)⟩,
    ⟨by omega,
      sanitize_amended.2.2.2 ("a").data ("b").data 4 (by omega)
        (by decide) (by decide)⟩⟩

/-- A string whose first character exists and is not whitespace. -/
def startsNonWs (s : String) : Prop :=
  ∃ c t, s.data = c :: t ∧ isWsChar c = false

/-- A string whose last character exists and is not whitespace. -/
def endsNonWs (s : String) : Prop :=
  ∃ c t, s.data = t ++ [c] ∧ isWsChar c = false

theorem startsNonWs_append (x y : String) (h : startsNonWs x) : startsNonWs (x ++ y) := by
  obtain ⟨c, t, hd, hc⟩ := h
  refine ⟨c, t ++ y.data, ?_, hc⟩
  rw [String.data_append, hd]
  rfl

theorem endsNonWs_append (x y : String) (h : endsNonWs y) : endsNonWs (x ++ y) := by
  obtain ⟨c, t, hd, hc⟩ := h
  refine ⟨c, x.data ++ t, ?_, hc⟩
  rw [String.data_append, hd, List.append_assoc]

theorem dropWhile_append_head {p : Char → Bool} (a : List Char) (c : Char) (t : List Char)
    (hc : p c = false) :
    (a ++ c :: t).dropWhile p = a.dropWhile p ++ c :: t := by
  induction a with
  | nil => simp [List.dropWhile_cons, hc]
  | cons x xs ih =>
    by_cases hx : p x
    · simp [List.dropWhile_cons, hx, ih]
    · simp [List.dropWhile_cons, hx]

theorem dropWhile_append_stop {p : Char → Bool} (u v : List Char)
    (h : ∃ x ∈ u, p x = false) :
    (u ++ v).dropWhile p = u.dropWhile p ++ v := by
  induction u with
  | nil => simp at h
  | cons x xs ih =>
    by_cases hx : p x
    · obtain ⟨y, hy, hpy⟩ := h
      have hy' : y ∈ xs := by
        rcases List.mem_cons.mp hy with rfl | hm
        · rw [hx] at hpy; simp at hpy
        · exact hm
      simp [List.dropWhile_cons, hx, ih ⟨y, hy', hpy⟩]
    · simp [List.dropWhile_cons, hx]

theorem trimRight_append_stop (P Q : List Char) (h : ∃ x ∈ Q, isWsChar x = false) :
    trimRightChars (P ++ Q) = P ++ trimRightChars Q := by
  unfold trimRightChars
  rw [List.reverse_append]
  obtain ⟨x, hx, hpx⟩ := h
  rw [dropWhile_append_stop _ _ ⟨x, by simp [hx], hpx⟩]
  rw [List.reverse_append, List.reverse_reverse]

theorem trimRight_append_last (a : List Char) (c : Char) (hc : isWsChar c = false) :
    trimRightChars (a ++ [c]) = a ++ [c] := by
  unfold trimRightChars
  rw [List.reverse_append]
  simp [List.dropWhile_cons, hc]

theorem trimRight_id_of_ends (s : String) (h : endsNonWs s) :
    trimRightChars s.data = s.data := by
  obtain ⟨c, t, hd, hc⟩ := h
  rw [hd, trimRight_append_last t c hc]

theorem trimLeft_id_of_starts (s : String) (h : startsNonWs s) :
    trimLeftChars s.data = s.data := by
  obtain ⟨c, t, hd, hc⟩ := h
  rw [hd]
  unfold trimLeftChars
  simp [List.dropWhile_cons, hc]

theorem mk_append (a b : List Char) : String.mk (a ++ b) = String.mk a ++ String.mk b := rfl

theorem jsTrim_id (s : String) (h1 : startsNonWs s) (h2 : endsNonWs s) : jsTrim s = s := by
  unfold jsTrim
  rw [trimLeft_id_of_starts s h1, trimRight_id_of_ends s h2]

theorem jsTrim_split (x y : String) (hx : startsNonWs x)
    (hy : ∃ c ∈ y.data, isWsChar c = false) :
    jsTrim (x ++ y) = x ++ String.mk (trimRightChars y.data) := by
  unfold jsTrim
  rw [trimLeft_id_of_starts (x ++ y) (startsNonWs_append x y hx)]
  rw [String.data_append, trimRight_append_stop x.data y.data hy]
  rw [mk_append]

theorem jsTrim_drop (x y : String) (hy1 : startsNonWs y) (hy2 : endsNonWs y) :
    jsTrim (x ++ y) = String.mk (trimLeftChars x.data) ++ y := by
  unfold jsTrim
  obtain ⟨c, t, hd, hc⟩ := hy1
  have hleft : trimLeftChars (x ++ y).data = trimLeftChars x.data ++ y.data := by
    rw [String.data_append, hd]
    unfold trimLeftChars
    rw [dropWhile_append_head x.data c t hc, ← hd]
  rw [hleft]
  have hright : trimRightChars (trimLeftChars x.data ++ y.data) =
      trimLeftChars x.data ++ y.data := by
    obtain ⟨c1, t1, hd1, hc1⟩ := hy2
    rw [hd1, ← List.append_assoc, trimRight_append_last _ c1 hc1]
  rw [hright, mk_append]

/-- The assembled document for any generated or fallback body ends with the
skeleton wrapped in a fenced code block (after the orchestrator's final trim
and newline). -/
theorem finalDoc_block (x sk : String) :
    ∃ pre : String, jsTrim (assembleDocument x sk) ++ "\n" =
      pre ++ "```python" ++ "\n\n" ++ sk ++ "\n\n" ++ "```" ++ "\n" := by
  have hshape0 : assembleDocument x sk =
      jsTrim x ++ "\n\n" ++ "## Boilerplate Glider Skeleton" ++ "\n\n" ++
        "Use this scaffold as a starting point while following official Glider examples." ++
        "\n\n" ++ "```python" ++ "\n\n" ++ sk ++ "\n\n" ++ "```" := rfl
  have hshape : assembleDocument x sk =
      (jsTrim x ++ "\n\n") ++
        ("## Boilerplate Glider Skeleton" ++ ("\n\n" ++
          ("Use this scaffold as a starting point while following official Glider examples." ++
            ("\n\n" ++ ("```python" ++ ("\n\n" ++ (sk ++ ("\n\n" ++ "```")))))))) := by
    rw [hshape0]
    simp only [String.append_assoc]
  have hy1 : startsNonWs ("## Boilerplate Glider Skeleton" ++ ("\n\n" ++
      ("Use this scaffold as a starting point while following official Glider examples." ++
        ("\n\n" ++ ("```python" ++ ("\n\n" ++ (sk ++ ("\n\n" ++ "```")))))))) :=
    startsNonWs_append _ _ ⟨'#', _, rfl, by decide⟩
  have htick : endsNonWs ("```" : String) := ⟨'`', ['`', '`'], rfl, by decide⟩
  have hy2 : endsNonWs ("## Boilerplate Glider Skeleton" ++ ("\n\n" ++
      ("Use this scaffold as a starting point while following official Glider examples." ++
        ("\n\n" ++ ("```python" ++ ("\n\n" ++ (sk ++ ("\n\n" ++ "```")))))))) :=
    endsNonWs_append _ _ (endsNonWs_append _ _ (endsNonWs_append _ _
      (endsNonWs_append _ _ (endsNonWs_append _ _ (endsNonWs_append _ _
        (endsNonWs_append _ _ (endsNonWs_append _ _ htick)))))))
  refine ⟨String.mk (trimLeftChars (jsTrim x ++ "\n\n").data) ++
    "## Boilerplate Glider Skeleton" ++ "\n\n" ++
    "Use this scaffold as a starting point while following official Glider examples." ++
    "\n\n", ?_⟩
  rw [hshape, jsTrim_drop _ _ hy1 hy2]
  simp only [String.append_assoc]

set_option maxHeartbeats 1000000 in
/-- Structure of the static-fallback document after assembly: the four
mandated headings in order, then the skeleton in a fenced block, for any
title, any middle sections and any failure note. -/
theorem staticChain_structure (title m1 m2 x3 e sk : String) :
    ∃ s1 s2 s3 s4 : String,
      jsTrim (assembleDocument
          ("# " ++ title ++ " Breakdown" ++ "\n\n" ++
            "## Vulnerability Breakdown" ++ "\n\n" ++ m1 ++ "\n\n" ++
            "## Evidence & Code Snippets" ++ "\n\n" ++ m2 ++ "\n\n" ++
            "## Glider Detection Blueprint" ++ "\n\n" ++ x3 ++ "\n\n" ++ "" ++ "\n\n" ++
            ("> AI fallback notice: " ++ e)) sk) ++ "\n" =
        "# " ++ title ++ " Breakdown" ++ s1 ++
          "## Vulnerability Breakdown" ++ s2 ++
          "## Evidence & Code Snippets" ++ s3 ++
          "## Glider Detection Blueprint" ++ s4 ++
          "```python" ++ "\n\n" ++ sk ++ "\n\n" ++ "```" ++ "\n" := by
  have hsplit : "# " ++ title ++ " Breakdown" ++ "\n\n" ++
      "## Vulnerability Breakdown" ++ "\n\n" ++ m1 ++ "\n\n" ++
      "## Evidence & Code Snippets" ++ "\n\n" ++ m2 ++ "\n\n" ++
      "## Glider Detection Blueprint" ++ "\n\n" ++ x3 ++ "\n\n" ++ "" ++ "\n\n" ++
      ("> AI fallback notice: " ++ e) =
      ("# " ++ (title ++ (" Breakdown" ++ ("\n\n" ++
        ("## Vulnerability Breakdown" ++ ("\n\n" ++ (m1 ++ ("\n\n" ++
        ("## Evidence & Code Snippets" ++ ("\n\n" ++ (m2 ++ ("\n\n" ++
        "## Glider Detection Blueprint")))))))))))) ++
        ("\n\n" ++ (x3 ++ ("\n\n" ++ ("" ++ ("\n\n" ++
          ("> AI fallback notice: " ++ e)))))) := by
    simp only [String.append_assoc]
  have hmem : ('>' : Char) ∈ ("\n\n" ++ (x3 ++ ("\n\n" ++ ("" ++ ("\n\n" ++
      ("> AI fallback notice: " ++ e)))))).data := by
    rw [String.data_append]
    apply List.mem_append_right
    rw [String.data_append]
    apply List.mem_append_right
    rw [String.data_append]
    apply List.mem_append_right
    rw [String.data_append]
    apply List.mem_append_right
    rw [String.data_append]
    apply List.mem_append_right
    rw [String.data_append]
    exact List.mem_append_left _ (by decide)
  have htrimF : jsTrim ("# " ++ title ++ " Breakdown" ++ "\n\n" ++
      "## Vulnerability Breakdown" ++ "\n\n" ++ m1 ++ "\n\n" ++
      "## Evidence & Code Snippets" ++ "\n\n" ++ m2 ++ "\n\n" ++
      "## Glider Detection Blueprint" ++ "\n\n" ++ x3 ++ "\n\n" ++ "" ++ "\n\n" ++
      ("> AI fallback notice: " ++ e)) =
      ("# " ++ (title ++ (" Breakdown" ++ ("\n\n" ++
        ("## Vulnerability Breakdown" ++ ("\n\n" ++ (m1 ++ ("\n\n" ++
        ("## Evidence & Code Snippets" ++ ("\n\n" ++ (m2 ++ ("\n\n" ++
        "## Glider Detection Blueprint")))))))))))) ++
        String.mk (trimRightChars ("\n\n" ++ (x3 ++ ("\n\n" ++ ("" ++ ("\n\n" ++
          ("> AI fallback notice: " ++ e)))))).data) := by
    rw [hsplit]
    exact jsTrim_split _ _ ⟨'#', _, rfl, by decide⟩ ⟨'>', hmem, by decide⟩
  have hA0 : assembleDocument ("# " ++ title ++ " Breakdown" ++ "\n\n" ++
      "## Vulnerability Breakdown" ++ "\n\n" ++ m1 ++ "\n\n" ++
      "## Evidence & Code Snippets" ++ "\n\n" ++ m2 ++ "\n\n" ++
      "## Glider Detection Blueprint" ++ "\n\n" ++ x3 ++ "\n\n" ++ "" ++ "\n\n" ++
      ("> AI fallback notice: " ++ e)) sk =
      jsTrim ("# " ++ title ++ " Breakdown" ++ "\n\n" ++
        "## Vulnerability Breakdown" ++ "\n\n" ++ m1 ++ "\n\n" ++
        "## Evidence & Code Snippets" ++ "\n\n" ++ m2 ++ "\n\n" ++
        "## Glider Detection Blueprint" ++ "\n\n" ++ x3 ++ "\n\n" ++ "" ++ "\n\n" ++
        ("> AI fallback notice: " ++ e)) ++ "\n\n" ++
        "## Boilerplate Glider Skeleton" ++ "\n\n" ++
        "Use this scaffold as a starting point while following official Glider examples." ++
        "\n\n" ++ "```python" ++ "\n\n" ++ sk ++ "\n\n" ++ "```" := rfl
  have hstarts : startsNonWs (jsTrim ("# " ++ title ++ " Breakdown" ++ "\n\n" ++
      "## Vulnerability Breakdown" ++ "\n\n" ++ m1 ++ "\n\n" ++
      "## Evidence & Code Snippets" ++ "\n\n" ++ m2 ++ "\n\n" ++
      "## Glider Detection Blueprint" ++ "\n\n" ++ x3 ++ "\n\n" ++ "" ++ "\n\n" ++
      ("> AI fallback notice: " ++ e))) := by
    rw [htrimF]
    exact startsNonWs_append _ _ (startsNonWs_append _ _ ⟨'#', _, rfl, by decide⟩)
  have htick : endsNonWs ("```" : String) := ⟨'`', ['`', '`'], rfl, by decide⟩
  have hAstart : startsNonWs (jsTrim ("# " ++ title ++ " Breakdown" ++ "\n\n" ++
      "## Vulnerability Breakdown" ++ "\n\n" ++ m1 ++ "\n\n" ++
      "## Evidence & Code Snippets" ++ "\n\n" ++ m2 ++ "\n\n" ++
      "## Glider Detection Blueprint" ++ "\n\n" ++ x3 ++ "\n\n" ++ "" ++ "\n\n" ++
      ("> AI fallback notice: " ++ e)) ++ "\n\n" ++
      "## Boilerplate Glider Skeleton" ++ "\n\n" ++
      "Use this scaffold as a starting point while following official Glider examples." ++
      "\n\n" ++ "```python" ++ "\n\n" ++ sk ++ "\n\n" ++ "```") :=
    startsNonWs_append _ _ (startsNonWs_append _ _ (startsNonWs_append _ _
      (startsNonWs_append _ _ (startsNonWs_append _ _ (startsNonWs_append _ _
      (startsNonWs_append _ _ (startsNonWs_append _ _ (startsNonWs_append _ _
      (startsNonWs_append _ _ hstarts)))))))))
  have hAend : endsNonWs (jsTrim ("# " ++ title ++ " Breakdown" ++ "\n\n" ++
      "## Vulnerability Breakdown" ++ "\n\n" ++ m1 ++ "\n\n" ++
      "## Evidence & Code Snippets" ++ "\n\n" ++ m2 ++ "\n\n" ++
      "## Glider Detection Blueprint" ++ "\n\n" ++ x3 ++ "\n\n" ++ "" ++ "\n\n" ++
      ("> AI fallback notice: " ++ e)) ++ "\n\n" ++
      "## Boilerplate Glider Skeleton" ++ "\n\n" ++
      "Use this scaffold as a starting point while following official Glider examples." ++
      "\n\n" ++ "```python" ++ "\n\n" ++ sk ++ "\n\n" ++ "```") :=
    endsNonWs_append _ _ htick
  refine ⟨"\n\n", "\n\n" ++ m1 ++ "\n\n", "\n\n" ++ m2 ++ "\n\n",
    String.mk (trimRightChars ("\n\n" ++ (x3 ++ ("\n\n" ++ ("" ++ ("\n\n" ++
      ("> AI fallback notice: " ++ e)))))).data) ++ "\n\n" ++
      "## Boilerplate Glider Skeleton" ++ "\n\n" ++
      "Use this scaffold as a starting point while following official Glider examples." ++
      "\n\n", ?_⟩
  rw [hA0, jsTrim_id _ hAstart hAend, htrimF]
  simp only [String.append_assoc]

/-- `buildFallbackDocument` unfolded to its nine joined segments. -/
theorem buildFallbackDocument_shape (ctx : BreakdownGenerationContext) (err : String) :
    buildFallbackDocument ctx err =
      "# " ++ ctx.report.metadata.title ++ " Breakdown" ++ "\n\n" ++
      "## Vulnerability Breakdown" ++ "\n\n" ++
      (if summarize ctx.report.raw FALLBACK_SUMMARY_LENGTH = "" then
        "Report content was not provided."
      else summarize ctx.report.raw FALLBACK_SUMMARY_LENGTH) ++ "\n\n" ++
      "## Evidence & Code Snippets" ++ "\n\n" ++
      (if ctx.report.artifacts.isEmpty then "- No code snippets detected"
      else jsJoin "\n" (ctx.report.artifacts.map (fun a => "- " ++ a.label))) ++ "\n\n" ++
      "## Glider Detection Blueprint" ++ "\n\n" ++
      jsJoin "\n"
        ["Start with Glider helper functions that map to the failure mode:",
         "1. Filter externally callable entry points touching the vulnerable state.",
         "2. Inspect arithmetic or state transitions highlighted in the report.",
         "3. Correlate on-chain events or storage transitions that confirm the exploit path.",
         "",
         "Reference breakdowns you can adapt:",
         (if ctx.referenceBreakdowns.isEmpty then "- None available"
          else jsJoin "\n" (ctx.referenceBreakdowns.map (fun r => "- " ++ r.title))),
         "",
         "Consult official Glider documentation for Functions(), Instructions(), and Contracts() usage patterns."] ++
      "\n\n" ++ "" ++ "\n\n" ++
      ("> AI fallback notice: " ++ err) := rfl

/-- A pair of backends whose every call fails, for exercising the fallback
paths on concrete inputs. -/
def demoFailingBackends : Backends :=
  { hosted := fun _ _ => .error "backend down",
    localModel := fun _ => .error "backend down" }

/-- A minimal concrete generation context. -/
def demoCtx : BreakdownGenerationContext :=
  { report :=
      { raw := "",
        metadata :=
          { title := "Vulnerability Report", severity := none,
            vulnType := "logic-error", source := none, date := none },
        artifacts := [] },
    referenceBreakdowns := [],
    templates := [] }

/-- C1: when both the primary backend attempt and the fallback backend
attempt fail, `generateBreakdownDocument` still returns (never throws) a
document built by the static fallback path, containing the four mandated
section headings in order and ending with the skeleton wrapped in a fenced
code block, for arbitrary report content. -/
theorem static_fallback_document_structure
    (be : Backends) (localEnabled : Bool) (ctx : BreakdownGenerationContext)
    (modelIdOpt : Option String) (e1 e2 : String)
    (h1 : tryGenerateMarkdown be localEnabled ctx
        (modelIdOpt.getD DEFAULT_MODEL_ID) = .error e1)
    (h2 : tryGenerateMarkdown be localEnabled ctx FALLBACK_MODEL_ID = .error e2) :
    ∃ s1 s2 s3 s4 : String,
      generateBreakdownDocument be localEnabled ctx modelIdOpt =
        "# " ++ ctx.report.metadata.title ++ " Breakdown" ++ s1 ++
          "## Vulnerability Breakdown" ++ s2 ++
          "## Evidence & Code Snippets" ++ s3 ++
          "## Glider Detection Blueprint" ++ s4 ++
          "```python" ++ "\n\n" ++ buildGliderSkeleton ++ "\n\n" ++ "```" ++ "\n" := by
  have hshape : ∀ err : String, ∃ s1 s2 s3 s4 : String,
      jsTrim (assembleDocument (buildFallbackDocument ctx err) buildGliderSkeleton) ++ "\n" =
        "# " ++ ctx.report.metadata.title ++ " Breakdown" ++ s1 ++
          "## Vulnerability Breakdown" ++ s2 ++
          "## Evidence & Code Snippets" ++ s3 ++
          "## Glider Detection Blueprint" ++ s4 ++
          "```python" ++ "\n\n" ++ buildGliderSkeleton ++ "\n\n" ++ "```" ++ "\n" := by
    intro err
    rw [buildFallbackDocument_shape]
    exact staticChain_structure _ _ _ _ _ _
  have hdoc : generateBreakdownDocument be localEnabled ctx modelIdOpt =
        jsTrim (assembleDocument (buildFallbackDocument ctx e1) buildGliderSkeleton) ++ "\n" ∨
      generateBreakdownDocument be localEnabled ctx modelIdOpt =
        jsTrim (assembleDocument (buildFallbackDocument ctx e2) buildGliderSkeleton) ++ "\n" := by
    unfold generateBreakdownDocument generateBreakdownDocumentRun
    dsimp only
    rw [h1]
    dsimp only
    split
    · rw [h2]
      exact Or.inr rfl
    · exact Or.inl rfl
  rcases hdoc with h | h
  · rw [h]; exact hshape e1
  · rw [h]; exact hshape e2

/-- Witness for the static-fallback structure at a concrete failing run. -/
theorem static_fallback_document_structure_witness :
    ∃ s1 s2 s3 s4 : String,
      generateBreakdownDocument demoFailingBackends false demoCtx none =
        "# " ++ demoCtx.report.metadata.title ++ " Breakdown" ++ s1 ++
          "## Vulnerability Breakdown" ++ s2 ++
          "## Evidence & Code Snippets" ++ s3 ++
          "## Glider Detection Blueprint" ++ s4 ++
          "```python" ++ "\n\n" ++ buildGliderSkeleton ++ "\n\n" ++ "```" ++ "\n" :=
  static_fallback_document_structure demoFailingBackends false demoCtx none
    "backend down" "backend down" rfl rfl

/-- A successful primary attempt ends the run at tier 1. -/
theorem run_ok (be : Backends) (l : Bool) (ctx : BreakdownGenerationContext)
    (opt : Option String) (md : String)
    (h : tryGenerateMarkdown be l ctx (opt.getD DEFAULT_MODEL_ID) = .ok md) :
    generateBreakdownDocumentRun be l ctx opt =
      (jsTrim (assembleDocument md buildGliderSkeleton) ++ "\n",
        [opt.getD DEFAULT_MODEL_ID]) := by
  unfold generateBreakdownDocumentRun
  dsimp only
  rw [h]

/-- When the primary attempt fails, the override is off and the primary model
is not already the fallback model, the fallback model is attempted. -/
theorem run_err_retry (be : Backends) (ctx : BreakdownGenerationContext)
    (opt : Option String) (e1 : String)
    (h : tryGenerateMarkdown be false ctx (opt.getD DEFAULT_MODEL_ID) = .error e1)
    (hm : opt.getD DEFAULT_MODEL_ID ≠ FALLBACK_MODEL_ID) :
    (generateBreakdownDocumentRun be false ctx opt).2 =
      [opt.getD DEFAULT_MODEL_ID, FALLBACK_MODEL_ID] := by
  unfold generateBreakdownDocumentRun
  dsimp only
  rw [h]
  dsimp only
  split
  · cases h2 : tryGenerateMarkdown be false ctx FALLBACK_MODEL_ID with
    | ok md => rfl
    | error e2 => rfl
  · next hcond => exact absurd ⟨by simp, hm⟩ hcond

/-- When the primary attempt fails and the retry condition does not hold, the
run goes straight to the static fallback with a single-call trace. -/
theorem run_err_noretry (be : Backends) (l : Bool) (ctx : BreakdownGenerationContext)
    (opt : Option String) (e1 : String)
    (h : tryGenerateMarkdown be l ctx (opt.getD DEFAULT_MODEL_ID) = .error e1)
    (hc : ¬(¬(l = true) ∧ opt.getD DEFAULT_MODEL_ID ≠ FALLBACK_MODEL_ID)) :
    generateBreakdownDocumentRun be l ctx opt =
      (jsTrim (assembleDocument (buildFallbackDocument ctx e1) buildGliderSkeleton) ++ "\n",
        [opt.getD DEFAULT_MODEL_ID]) := by
  unfold generateBreakdownDocumentRun
  dsimp only
  rw [h]
  dsimp only
  split
  · next hcond => exact absurd hcond hc
  · rfl

/-- C7: the fallback backend call is attempted (the call trace has the
fallback model second) iff the primary attempt failed, the local override is
off, and the primary model is not the fallback model; with the override on,
a tier-1 failure goes straight to the static tier-3 fallback with a
single-call trace. -/
theorem fallback_tier_gating (be : Backends) (localEnabled : Bool)
    (ctx : BreakdownGenerationContext) (modelIdOpt : Option String) :
    ((generateBreakdownDocumentRun be localEnabled ctx modelIdOpt).2 =
        [modelIdOpt.getD DEFAULT_MODEL_ID, FALLBACK_MODEL_ID] ↔
      ((∃ e, tryGenerateMarkdown be localEnabled ctx
          (modelIdOpt.getD DEFAULT_MODEL_ID) = .error e) ∧
        localEnabled = false ∧
        modelIdOpt.getD DEFAULT_MODEL_ID ≠ FALLBACK_MODEL_ID)) ∧
    (∀ e, localEnabled = true →
      tryGenerateMarkdown be localEnabled ctx
          (modelIdOpt.getD DEFAULT_MODEL_ID) = .error e →
      generateBreakdownDocumentRun be localEnabled ctx modelIdOpt =
        (jsTrim (assembleDocument (buildFallbackDocument ctx e) buildGliderSkeleton) ++ "\n",
          [modelIdOpt.getD DEFAULT_MODEL_ID])) := by
  constructor
  · constructor
    · intro ht
      cases hp : tryGenerateMarkdown be localEnabled ctx
          (modelIdOpt.getD DEFAULT_MODEL_ID) with
      | ok md =>
        rw [run_ok be localEnabled ctx modelIdOpt md hp] at ht
        simp at ht
      | error e1 =>
        by_cases hl : localEnabled = true
        · rw [run_err_noretry be localEnabled ctx modelIdOpt e1 hp (by simp [hl])] at ht
          simp at ht
        · have hlf : localEnabled = false := by
            cases localEnabled
            · rfl
            · exact absurd rfl hl
          by_cases hm : modelIdOpt.getD DEFAULT_MODEL_ID = FALLBACK_MODEL_ID
          · rw [run_err_noretry be localEnabled ctx modelIdOpt e1 hp (by simp [hm])] at ht
            simp at ht
          · exact ⟨⟨e1, rfl⟩, hlf, hm⟩
    · rintro ⟨⟨e1, hp⟩, hl, hm⟩
      subst hl
      exact run_err_retry be ctx modelIdOpt e1 hp hm
  · intro e hl he
    exact run_err_noretry be localEnabled ctx modelIdOpt e he (by simp [hl])

/-- Witness: with every backend failing, the override off and the default
primary model, the fallback model is attempted second. -/
theorem fallback_tier_gating_witness :
    (generateBreakdownDocumentRun demoFailingBackends false demoCtx none).2 =
      [DEFAULT_MODEL_ID, FALLBACK_MODEL_ID] :=
  (fallback_tier_gating demoFailingBackends false demoCtx none).1.mpr
    ⟨⟨"backend down", rfl⟩, rfl, by decide⟩

/-- C8: the assembled document starts with the trimmed body, contains the
skeleton verbatim inside a fenced code block, and the constant skeleton
block appears in the output of every generation run, whatever the backends,
flags and context. -/
theorem assemble_round_trip :
    (∀ md sk : String, ∃ rest : String,
      assembleDocument md sk = jsTrim md ++ rest) ∧
    (∀ md sk : String, ∃ pre : String,
      assembleDocument md sk =
        pre ++ "```python" ++ "\n\n" ++ sk ++ "\n\n" ++ "```") ∧
    (∀ (be : Backends) (l : Bool) (ctx : BreakdownGenerationContext)
        (opt : Option String), ∃ pre : String,
      generateBreakdownDocument be l ctx opt =
        pre ++ "```python" ++ "\n\n" ++ buildGliderSkeleton ++ "\n\n" ++ "```" ++ "\n") := by
  have hshape : ∀ md sk : String, assembleDocument md sk =
      jsTrim md ++ "\n\n" ++ "## Boilerplate Glider Skeleton" ++ "\n\n" ++
        "Use this scaffold as a starting point while following official Glider examples." ++
        "\n\n" ++ "```python" ++ "\n\n" ++ sk ++ "\n\n" ++ "```" := fun _ _ => rfl
  refine ⟨?_, ?_, ?_⟩
  · intro md sk
    refine ⟨"\n\n" ++ ("## Boilerplate Glider Skeleton" ++ ("\n\n" ++
      ("Use this scaffold as a starting point while following official Glider examples." ++
        ("\n\n" ++ ("```python" ++ ("\n\n" ++ (sk ++ ("\n\n" ++ "```")))))))), ?_⟩
    rw [hshape]
    simp only [String.append_assoc]
  · intro md sk
    refine ⟨jsTrim md ++ "\n\n" ++ "## Boilerplate Glider Skeleton" ++ "\n\n" ++
      "Use this scaffold as a starting point while following official Glider examples." ++
      "\n\n", ?_⟩
    rw [hshape]
  · intro be l ctx opt
    have hall : ∀ X : String, ∃ pre : String,
        jsTrim (assembleDocument X buildGliderSkeleton) ++ "\n" =
          pre ++ "```python" ++ "\n\n" ++ buildGliderSkeleton ++ "\n\n" ++ "```" ++ "\n" :=
      fun X => finalDoc_block X buildGliderSkeleton
    unfold generateBreakdownDocument generateBreakdownDocumentRun
    dsimp only
    cases hp : tryGenerateMarkdown be l ctx (opt.getD DEFAULT_MODEL_ID) with
    | ok md => exact hall md
    | error e1 =>
      dsimp only
      split
      · cases h2 : tryGenerateMarkdown be l ctx FALLBACK_MODEL_ID with
        | ok md => exact hall md
        | error e2 => exact hall (buildFallbackDocument ctx e2)
      · exact hall (buildFallbackDocument ctx e1)

/-- C9: the prompt builder is deterministic in its context: two invocations
with the same parsed report, the same reference list and the same template
list produce identical instruction strings.  (In the embedding `buildPrompt`
is a pure function of the context and nothing else, mirroring the absence of
I/O and of reads of mutable state in the source.) -/
theorem buildPrompt_deterministic (c1 c2 : BreakdownGenerationContext)
    (hr : c1.report = c2.report)
    (hb : c1.referenceBreakdowns = c2.referenceBreakdowns)
    (ht : c1.templates = c2.templates) :
    buildPrompt c1 = buildPrompt c2 := by
  have h : c1 = c2 := by
    cases c1
    cases c2
    dsimp only at hr hb ht
    rw [hr, hb, ht]
  rw [h]

/-- Witness: determinism of the prompt builder at a concrete context. -/
theorem buildPrompt_deterministic_witness :
    buildPrompt demoCtx = buildPrompt demoCtx :=
  buildPrompt_deterministic demoCtx demoCtx rfl rfl rfl

/-- C10: a request whose markdown field is absent and one whose markdown
field is the empty string get the same treatment: status 400 with error
message Missing markdown payload, no document, and no pipeline work of any
kind (the work flag stays false), for every backend, flag, template list,
reference list, date and source field. -/
theorem route_rejects_blank_markdown (templates : List GlideTemplate)
    (references : List BreakdownReference) (be : Backends) (localEnabled : Bool)
    (date : String) (src : Option String) :
    postHandler (.ok (none, src)) templates references be localEnabled date =
      ({ status := 400, error := some "Missing markdown payload",
         document := none, fileName := none }, false) ∧
    postHandler (.ok (some "", src)) templates references be localEnabled date =
      ({ status := 400, error := some "Missing markdown payload",
         document := none, fileName := none }, false) := ⟨rfl, rfl⟩
